import Mathlib

/-!
Verification development for `db_operations.py`, a MariaDB dump transfer
toolkit (import/export of textual SQL dumps, archive packaging, bounded
connection retry, and a multi-threaded chunked import path).

The Python source is shallowly embedded: pure string manipulation becomes
Lean functions on `String`/`List Char`; the database engine (an opaque
external SQL-executing service per the design) is modelled as a small
state machine over table snapshots, faithful to the statement grammar the
exporter emits (`DROP TABLE IF EXISTS`, the engine-reported create
statement, multi-row `INSERT`); fallible calls (connect, file read, zip)
are modelled as `Except`-valued environment parameters.  Machine floats
are not modelled; numeric cells are integers.
-/

namespace DbOps

/-- Characters stripped by Python's `str.strip()` (ASCII whitespace). -/
def isPySpace (c : Char) : Bool :=
  c = ' ' || c = '\t' || c = '\n' || c = '\r' || c = Char.ofNat 11 || c = Char.ofNat 12

/-- Python `str.strip()` on a character list. -/
def pyStripL (l : List Char) : List Char :=
  ((l.dropWhile isPySpace).reverse.dropWhile isPySpace).reverse

/-- Python `str.strip()`: embedding of `command.strip()` at line 66 of the source. -/
def pyStrip (s : String) : String := String.mk (pyStripL s.data)

/-- Helper for `splitOnChar`: prepend a character to the first group. -/
def consHead (a : Char) : List (List Char) → List (List Char)
  | [] => [[a]]
  | s :: ss => (a :: s) :: ss

/-- Split a character list on every occurrence of a separator character;
Python `str.split(sep)` semantics for a one-character separator
(`f.read().split(';')` at line 63 of the source). -/
def splitOnChar (c : Char) : List Char → List (List Char)
  | [] => [[]]
  | a :: r => if a = c then [] :: splitOnChar c r else consHead a (splitOnChar c r)

/-- Join groups back with the separator character (inverse of `splitOnChar`). -/
def joinWith (c : Char) : List (List Char) → List Char
  | [] => []
  | [l] => l
  | l :: ls => l ++ c :: joinWith c ls

/-- Python `s.split(sep)` for a one-character separator, on `String`. -/
def pySplit (sep : Char) (s : String) : List String :=
  (splitOnChar sep s.data).map String.mk

/-- The single-quote character. -/
def squote : Char := Char.ofNat 39

/-- The backtick character. -/
def backtick : Char := Char.ofNat 96

/-- Python `str.replace` of a single quote by two single quotes, one
character at a time (line 134 of the source). -/
def escQuoteL : List Char → List Char
  | [] => []
  | c :: r => if c = squote then squote :: squote :: escQuoteL r else c :: escQuoteL r

/-- Embedding of `str(value).replace(squote, two squotes)` from line 134. -/
def pyReplaceQuote (s : String) : String := String.mk (escQuoteL s.data)

/-- Decimal digit characters. -/
def digitChar : Nat → Char
  | 0 => '0'
  | 1 => '1'
  | 2 => '2'
  | 3 => '3'
  | 4 => '4'
  | 5 => '5'
  | 6 => '6'
  | 7 => '7'
  | 8 => '8'
  | _ => '9'

/-- Fueled decimal digit expansion of a natural number (most significant
digit first); fuel `n + 1` always suffices. -/
def natDigitsAux : Nat → Nat → List Char
  | 0, _ => []
  | fuel + 1, n =>
    if n < 10 then [digitChar n]
    else natDigitsAux fuel (n / 10) ++ [digitChar (n % 10)]

/-- Decimal representation of a natural number. -/
def natRepr (n : Nat) : String := String.mk (natDigitsAux (n + 1) n)

/-- Embedding of Python `str(value)` for an integer value. -/
def pyStrInt (n : Int) : String :=
  if n < 0 then "-" ++ natRepr n.natAbs else natRepr n.natAbs

/-- A cell value as fetched from a row: SQL NULL, a numeric value, or any
other value carried by its textual representation (Python `str(value)`). -/
inductive SqlValue where
  | null : SqlValue
  | num : Int → SqlValue
  | str : String → SqlValue
deriving DecidableEq

/-- Value serialization of the exporter, lines 128-134 of the source:
`NULL` for `None`, bare numeric literal for `int`/`float`, otherwise the
single-quoted textual representation with embedded quotes doubled. -/
def serializeValue : SqlValue → String
  | .null => "NULL"
  | .num n => pyStrInt n
  | .str s => "'" ++ pyReplaceQuote s ++ "'"

/-- A table snapshot: name, ordered column list, ordered row list. -/
structure Table where
  name : String
  cols : List String
  rows : List (List SqlValue)
deriving DecidableEq

/-- Join strings with a separator (Python `sep.join(...)`). -/
def joinStrSep (sep : String) : List String → String
  | [] => ""
  | [s] => s
  | s :: ss => s ++ sep ++ joinStrSep sep ss

/-- The engine-reported create statement for a table, as the modelled
engine answers `SHOW CREATE TABLE` (line 113 of the source queries the
engine; the statement's exact dialect is opaque to the exporter, which
replays it verbatim). -/
def mkCreateStmt (n : String) (cols : List String) : String :=
  "CREATE TABLE `" ++ n ++ "` (" ++
    joinStrSep (",") (cols.map (fun c => "`" ++ c ++ "` text")) ++ ")"

/-- One serialized row: parenthesized, comma-joined values (line 136). -/
def rowText (r : List SqlValue) : String :=
  "(" ++ joinStrSep (",") (r.map serializeValue) ++ ")"

/-- The serialized row block of an `INSERT`: each row followed by `,\n`,
the last by `;\n` (line 137 of the source). -/
def rowsText : List (List SqlValue) → String
  | [] => ""
  | [r] => rowText r ++ ";\n"
  | r :: rs => rowText r ++ ",\n" ++ rowsText rs

/-- The `INSERT INTO ... VALUES` header write of line 124. -/
def insHeader (t : Table) : String :=
  "INSERT INTO `" ++ t.name ++ "` (`" ++ joinStrSep ("`,`") t.cols ++ "`) VALUES\n"

/-- The sequence of `f.write` calls made for one table (lines 109-137):
structure comment, `DROP TABLE IF EXISTS`, the engine-reported create
statement, data comment, then (only when the table has rows) the insert
header and the row block. -/
def tableWrites (t : Table) : List String :=
  ("\n-- Table structure for table `" ++ t.name ++ "`\n") ::
  ("DROP TABLE IF EXISTS `" ++ t.name ++ "`;\n") ::
  (mkCreateStmt t.name t.cols ++ ";\n\n") ::
  ("-- Dumping data for table `" ++ t.name ++ "`\n") ::
  (if t.rows = [] then [] else [insHeader t, rowsText t.rows])

/-- All `f.write` calls of `export_dump` in order (lines 103-137): the two
header comment writes, then the per-table writes in enumeration order. -/
def exportWrites (now dbLabel : String) (tables : List Table) : List String :=
  ("-- Database dump generated on " ++ now ++ "\n") ::
  ("-- Database: " ++ dbLabel ++ "\n\n") ::
  (tables.map tableWrites).flatten

/-- Concatenate a list of strings. -/
def joinAll : List String → String
  | [] => ""
  | s :: ss => s ++ joinAll ss

/-- The full text written by `export_dump` for a database snapshot. -/
def exportText (now dbLabel : String) (tables : List Table) : String :=
  joinAll (exportWrites now dbLabel tables)

/-- `export_dump` (lines 81-145): establish the connection, fetch the table
snapshots from the engine, write the dump text; any fault is translated
into `(False, message)` by the `except` clause at line 141. -/
def export_dump (connect : Except String Unit) (fetch : Except String (List Table))
    (now dbLabel : String) : (Bool × String) × Option String :=
  match connect with
  | .error e => ((false, "Error exporting dump: " ++ e), none)
  | .ok _ =>
    match fetch with
    | .error e => ((false, "Error exporting dump: " ++ e), none)
    | .ok tables => ((true, "Dump exported successfully"), some (exportText now dbLabel tables))

/-- Environment of one `import_dump` call: the connection attempt outcome,
the `CREATE DATABASE IF NOT EXISTS` + `USE` outcome, the file read
outcome, and the engine's per-statement execution on state `σ`. -/
structure ImportEnv (σ : Type) where
  connect : Except String Unit
  createDb : Except String Unit
  readFile : Except String String
  exec : σ → String → Except String σ

/-- The statement replay loop of `import_dump` (lines 65-70): every
command whose `strip()` is non-blank is executed; a failing statement is
skipped and replay continues.  Returns the final engine state and the
trace of commands passed to `cur.execute`, in order. -/
def runCommands {σ : Type} (exec : σ → String → Except String σ) :
    σ → List String → σ × List String
  | st, [] => (st, [])
  | st, c :: cs =>
    if pyStrip c ≠ "" then
      match exec st c with
      | .ok st2 =>
        let r := runCommands exec st2 cs
        (r.1, c :: r.2)
      | .error _ =>
        let r := runCommands exec st cs
        (r.1, c :: r.2)
    else runCommands exec st cs

/-- `import_dump` (lines 41-79): connect, optionally create and switch to a
new database, read the dump file, split its text on the literal `;` and
replay each non-blank command best-effort; only connection, database
creation and file read failures reach the outer `except` clause.  The
final `conn.commit()` and `conn.close()` are modelled as succeeding.
Returns the `(success, message)` pair, the final engine state, and the
trace of replayed commands. -/
def import_dump {σ : Type} (env : ImportEnv σ) (st0 : σ) (newDb : Bool) :
    (Bool × String) × σ × List String :=
  match env.connect with
  | .error e => ((false, "Error importing dump: " ++ e), st0, [])
  | .ok _ =>
    match (if newDb then env.createDb else Except.ok ()) with
    | .error e => ((false, "Error importing dump: " ++ e), st0, [])
    | .ok _ =>
      match env.readFile with
      | .error e => ((false, "Error importing dump: " ++ e), st0, [])
      | .ok text =>
        let r := runCommands env.exec st0 (pySplit ';' text)
        ((true, "Dump imported successfully"), r.1, r.2)

/-- `MAX_RETRIES` constant (line 25 of the source). -/
def MAX_RETRIES : Nat := 3

/-- `RETRY_DELAY` constant (line 26 of the source). -/
def RETRY_DELAY : Nat := 2

/-- Environment of `get_db_connection`: the outcome of the `mariadb.connect`
call at each attempt index. -/
structure ConnEnv where
  attempt : Nat → Except String Unit

/-- The retry loop of `get_db_connection` (lines 28-39), recursing on the
remaining attempt budget: each failed attempt sleeps `RETRY_DELAY` and
increments the counter; exhausting the budget raises a fixed message.
Returns the outcome, the number of `mariadb.connect` calls made, and the
list of sleep durations performed. -/
def connectLoop (env : ConnEnv) : Nat → Nat → Except String Unit × Nat × List Nat
  | attempts, 0 => (.error "Failed to connect to database after multiple attempts", attempts, [])
  | attempts, rem + 1 =>
    match env.attempt attempts with
    | .ok _ => (.ok (), attempts + 1, [])
    | .error _ =>
      let r := connectLoop env (attempts + 1) rem
      (r.1, r.2.1, RETRY_DELAY :: r.2.2)

/-- `get_db_connection` (lines 28-39). -/
def get_db_connection (env : ConnEnv) : Except String Unit × Nat × List Nat :=
  connectLoop env 0 MAX_RETRIES

/-- `compress_file` (lines 147-154): the zip write is an opaque file
operation; its failure is translated by the `except` clause. -/
def compress_file (zipWrite : Except String Unit) : Bool × String :=
  match zipWrite with
  | .ok _ => (true, "File compressed successfully")
  | .error e => (false, "Error compressing file: " ++ e)

/-- `decompress_file` (lines 156-163). -/
def decompress_file (extract : Except String Unit) : Bool × String :=
  match extract with
  | .ok _ => (true, "File decompressed successfully")
  | .error e => (false, "Error decompressing file: " ++ e)

/-- `split_dump_file` (lines 278-282): the placeholder body returns the
input path repeated `num_chunks` times. -/
def split_dump_file (dump_file_path : String) (num_chunks : Nat) : List String :=
  List.replicate num_chunks dump_file_path

/-- The record appended by the worker `import_chunk` (lines 284-303). -/
structure ThreadResult where
  db_name : String
  success : Bool
  message : String
deriving DecidableEq

/-- The target database name assigned to worker `i` (line 258). -/
def threadDbName (pfx : String) (i : Nat) : String := pfx ++ "_thread_" ++ natRepr i

/-- The single result record worker `i` appends: its target database name
and the `(success, message)` outcome of its `import_dump` call. -/
def import_chunk_record (pfx : String) (outcome : Nat → Bool × String) (i : Nat) : ThreadResult :=
  ⟨threadDbName pfx i, (outcome i).1, (outcome i).2⟩

/-- The shared result list of `threaded_import` after all workers have been
joined, for a given append interleaving `order` (each element of `order`
is the index of the worker whose single atomic `results.append` landed at
that position). -/
def threaded_results (pfx : String) (outcome : Nat → Bool × String) (order : List Nat) :
    List ThreadResult :=
  order.map (import_chunk_record pfx outcome)

/-- The best-effort cleanup loop of `threaded_import` (lines 269-274) on a
file system modelled as the list of existing paths: `os.remove` deletes
the path if present, and a failing removal is silently ignored. -/
def threaded_import_cleanup (fs : List String) (chunks : List String) : List String :=
  chunks.foldl (fun acc c => acc.erase c) fs

/-- The file-system effect of `threaded_import` (lines 249-276): the chunk
list comes from `split_dump_file`, and after joining all workers every
chunk path is removed best-effort. -/
def threaded_import_fs (fs : List String) (dump_file_path : String) (num_threads : Nat) :
    List String :=
  threaded_import_cleanup fs (split_dump_file dump_file_path num_threads)

/-! ## The modelled engine

The relational engine is an external collaborator ("an opaque
SQL-executing service").  To settle the round-trip claim it is modelled
as a state machine over the list of table snapshots of the target
database: it strips leading comment lines, then parses exactly the
statement forms the exporter emits.  The model imposes no
statement-length limit. -/

/-- The three statement forms the exporter emits. -/
inductive SqlCmd where
  | dropT : String → SqlCmd
  | createT : String → List String → SqlCmd
  | insertT : String → List String → List (List SqlValue) → SqlCmd
deriving DecidableEq

/-- Parsing fuel: one unit per character plus one. -/
def fuelFor (l : List Char) : Nat := l.length + 1

/-- Consume an expected literal character sequence. -/
def expectPfx : List Char → List Char → Option (List Char)
  | [], l => some l
  | _ :: _, [] => none
  | p :: ps, c :: cs => if c = p then expectPfx ps cs else none

/-- Consume one expected character. -/
def expectChar (c : Char) : List Char → Option (List Char)
  | [] => none
  | x :: r => if x = c then some r else none

/-- Read an identifier up to (and consuming) the closing backtick. -/
def parseName (l : List Char) : Option (String × List Char) :=
  match l.dropWhile (fun c => c ≠ backtick) with
  | [] => none
  | _ :: r => some (String.mk (l.takeWhile (fun c => c ≠ backtick)), r)

/-- Parse the column clauses of a create statement: backquoted column
names each followed by a type word, comma separated, up to the closing
parenthesis. -/
def parseCols : Nat → List Char → Option (List String × List Char)
  | 0, _ => none
  | fuel + 1, l => do
    let r1 ← expectChar backtick l
    let (col, r2) ← parseName r1
    let r3 ← expectPfx ((" text").data) r2
    if r3.head? = some ',' then do
      let (cols, r5) ← parseCols fuel r3.tail
      some (col :: cols, r5)
    else if r3.head? = some ')' then some ([col], r3.tail)
    else none

/-- Parse the backquoted column list of an insert header (already past the
first backtick), comma separated, up to the closing parenthesis. -/
def parseInsCols : Nat → List Char → Option (List String × List Char)
  | 0, _ => none
  | fuel + 1, l => do
    let (col, r) ← parseName l
    if r.head? = some ',' then do
      let r3 ← expectChar backtick r.tail
      let (cols, r4) ← parseInsCols fuel r3
      some (col :: cols, r4)
    else if r.head? = some ')' then some ([col], r.tail)
    else none

/-- Scan a single-quoted SQL string (already past the opening quote): a
doubled quote is an embedded quote, a single quote closes. -/
def scanQuoted : List Char → Option (List Char × List Char)
  | [] => none
  | c :: r =>
    if c = squote then
      match r with
      | [] => some ([], [])
      | c2 :: r2 =>
        if c2 = squote then do
          let (s, r3) ← scanQuoted r2
          some (squote :: s, r3)
        else some ([], r)
    else do
      let (s, r2) ← scanQuoted r
      some (c :: s, r2)

/-- Parse a decimal natural number. -/
def parseNatL (l : List Char) : Option Nat :=
  if l ≠ [] ∧ l.all Char.isDigit then
    some (l.foldl (fun a c => a * 10 + (c.toNat - 48)) 0)
  else none

/-- Parse an optionally negated decimal integer. -/
def parseIntL : List Char → Option Int
  | [] => none
  | c :: r =>
    if c = '-' then
      match parseNatL r with
      | some m => some (-(m : Int))
      | none => none
    else
      match parseNatL (c :: r) with
      | some m => some ((m : Int))
      | none => none

/-- Parse one serialized cell value: `NULL`, a quoted string, or a bare
numeric literal (scanned up to the next comma or closing parenthesis). -/
def parseValue (l : List Char) : Option (SqlValue × List Char) :=
  if l.take 4 = ("NULL").data then some (.null, l.drop 4)
  else if l.head? = some squote then
    (scanQuoted l.tail).map (fun p => (.str (String.mk p.1), p.2))
  else
    match parseIntL (l.takeWhile (fun x => x ≠ ',' && x ≠ ')')) with
    | some n => some (.num n, l.dropWhile (fun x => x ≠ ',' && x ≠ ')'))
    | none => none

/-- Parse the comma-separated values of one row, up to and consuming the
closing parenthesis. -/
def parseVals : Nat → List Char → Option (List SqlValue × List Char)
  | 0, _ => none
  | fuel + 1, l =>
    if l.head? = some ')' then some ([], l.tail)
    else do
      let (v, r2) ← parseValue l
      if r2.head? = some ',' then do
        let (vs, r4) ← parseVals fuel r2.tail
        some (v :: vs, r4)
      else if r2.head? = some ')' then some ([v], r2.tail)
      else none

/-- Parse the parenthesized rows of a multi-row insert, separated by a
comma and newline, ending exactly at the end of the statement. -/
def parseRows : Nat → List Char → Option (List (List SqlValue) × List Char)
  | 0, _ => none
  | fuel + 1, l => do
    let r ← expectChar '(' l
    let (vs, r2) ← parseVals (fuelFor r) r
    if r2 = [] then some ([vs], [])
    else if r2.head? = some ',' then do
      let r4 ← expectChar '\n' r2.tail
      let (rest, r5) ← parseRows fuel r4
      some (vs :: rest, r5)
    else none

/-- Parse the tail of a drop statement, after the initial letter. -/
def parseDropTail (l : List Char) : Option SqlCmd := do
  let r ← expectPfx (("ROP TABLE IF EXISTS `").data) l
  let (n, r2) ← parseName r
  if r2 = [] then some (.dropT n) else none

/-- Parse the tail of a create statement, after the initial letter. -/
def parseCreateTail (l : List Char) : Option SqlCmd := do
  let r ← expectPfx (("REATE TABLE `").data) l
  let (n, r2) ← parseName r
  let r3 ← expectPfx ((" (").data) r2
  let (cols, r4) ← parseCols (fuelFor r3) r3
  if r4 = [] then some (.createT n cols) else none

/-- Parse the tail of an insert statement, after the initial letter. -/
def parseInsertTail (l : List Char) : Option SqlCmd := do
  let r ← expectPfx (("NSERT INTO `").data) l
  let (n, r2) ← parseName r
  let r3a ← expectPfx ((" (").data) r2
  let r3 ← expectChar backtick r3a
  let (cols, r4) ← parseInsCols (fuelFor r3) r3
  let r5 ← expectPfx ((" VALUES\n").data) r4
  let (rows, r6) ← parseRows (fuelFor r5) r5
  if r6 = [] then some (.insertT n cols rows) else none

/-- Parse one statement (comments already stripped). -/
def parseCmd : List Char → Option SqlCmd
  | 'D' :: r => parseDropTail r
  | 'C' :: r => parseCreateTail r
  | 'I' :: r => parseInsertTail r
  | _ => none

/-- A line the engine ignores: blank, or a `--` comment line. -/
def isJunkLine (l : List Char) : Bool :=
  let s := l.dropWhile isPySpace
  s = [] || s.take 2 = ("--").data

/-- Drop the leading blank and comment lines of a statement. -/
def skipJunk (l : List Char) : List Char :=
  joinWith '\n' ((splitOnChar '\n' l).dropWhile isJunkLine)

/-- Execute one replayed command on the engine state: strip leading
comment lines, parse, apply; anything else (including a comment-only or
malformed command) is a statement error, which `import_dump` skips. -/
def applyCmd (st : List Table) : SqlCmd → Except String (List Table)
  | .dropT n => .ok (st.filter (fun t => t.name ≠ n))
  | .createT n cols =>
    if st.any (fun t => t.name = n) then .error "table already exists"
    else .ok (st ++ [⟨n, cols, []⟩])
  | .insertT n cols rows =>
    match st.find? (fun t => t.name = n) with
    | none => .error "no such table"
    | some t =>
      if t.cols = cols then
        .ok (st.map (fun u => if u.name = n then ⟨u.name, u.cols, u.rows ++ rows⟩ else u))
      else .error "unknown column"

/-- One statement execution of the modelled engine. -/
def execStmt (st : List Table) (s : String) : Except String (List Table) :=
  match parseCmd (skipJunk s.data) with
  | some cmd => applyCmd st cmd
  | none => .error "statement failed"

/-- The import environment of a successful run against the modelled
engine: connection, database creation and file read all succeed, and the
file contains `text`. -/
def engineEnv (text : String) : ImportEnv (List Table) :=
  ⟨Except.ok (), Except.ok (), Except.ok text, execStmt⟩

/-- Identifier well-formedness for the round-trip statement: no statement
separator, no backtick, no newline among the characters. -/
def wfNameB (s : String) : Bool :=
  s.data.all (fun c => c ≠ ';' && c ≠ backtick && c ≠ '\n')

/-- Cell well-formedness for the round-trip statement: a textual cell must
not contain the literal statement separator `;` (the naive split caveat). -/
def wfValB : SqlValue → Bool
  | .str s => s.data.all (fun c => c ≠ ';')
  | _ => true

/-- Table well-formedness: well-formed name and columns, at least one
column, all cells well-formed. -/
def wfTableB (t : Table) : Bool :=
  wfNameB t.name && !t.cols.isEmpty && t.cols.all wfNameB &&
    t.rows.all (fun r => r.all wfValB)

/-- Database well-formedness for the round-trip theorem. -/
def wfDb (now dbLabel : String) (db : List Table) : Prop :=
  (db.map Table.name).Nodup ∧ db.all wfTableB = true ∧
    wfNameB now = true ∧ wfNameB dbLabel = true

/-- The non-blank commands `import_dump` replays, in dump order. -/
def importStatements (text : String) : List String :=
  (pySplit ';' text).filter (fun c => pyStrip c ≠ "")

/-- The state left by replaying a command list best-effort (the pure fold
underlying `runCommands`). -/
def execFold {σ : Type} (exec : σ → String → Except String σ) (st : σ)
    (cs : List String) : σ :=
  cs.foldl (fun s c => match exec s c with | .ok s2 => s2 | .error _ => s) st

/-- An engine oracle for the best-effort claims: statement `c` succeeds
exactly when `oracle c` holds, and the state collects the statements that
took effect, in order. -/
def oracleExec (oracle : String → Bool) : List String → String → Except String (List String) :=
  fun acc c => if oracle c then .ok (acc ++ [c]) else .error "statement failed"

/-- The serialized rows of an insert, without the final `;` and newline. -/
def rowsBodyText : List (List SqlValue) → String
  | [] => ""
  | [r] => rowText r
  | r :: rs => rowText r ++ ",\n" ++ rowsBodyText rs

/-- The text one table contributes to the dump. -/
def sectionText (t : Table) : String := joinAll (tableWrites t)

/-- The text all tables contribute, in enumeration order. -/
def sectionsText : List Table → String
  | [] => ""
  | t :: ts => sectionText t ++ sectionsText ts

/-- The commands the modelled engine recognizes among the replayed
non-blank commands of a dump (comment-only and malformed commands parse
to nothing and are skipped by the best-effort replay). -/
def dumpCommands (text : String) : List SqlCmd :=
  (importStatements text).filterMap (fun c => parseCmd (skipJunk c.data))

/-- The statement sequence claim C5 predicts for one table: a drop, the
create, then a single insert carrying all rows — or no insert at all when
the table has no rows. -/
def tableCmds (t : Table) : List SqlCmd :=
  [SqlCmd.dropT t.name, SqlCmd.createT t.name t.cols] ++
    (if t.rows = [] then [] else [SqlCmd.insertT t.name t.cols t.rows])

/-- The non-blank commands of a dump given as raw characters (what
`import_dump` replays after `split(';')` and the blank filter). -/
def importedChunks (l : List Char) : List String :=
  ((splitOnChar ';' l).map String.mk).filter (fun c => pyStrip c ≠ "")

/-- `l` contains no occurrence of the character `c`. -/
def NoChar (c : Char) (l : List Char) : Prop := ∀ x ∈ l, x ≠ c

/-- The structure comment line for one table. -/
def structCmt (n : String) : List Char :=
  ("-- Table structure for table `").data ++ n.data ++ ("`").data

/-- The drop statement for one table. -/
def dropStmtL (n : String) : List Char :=
  ("DROP TABLE IF EXISTS `").data ++ n.data ++ ("`").data

/-- The data comment line for one table. -/
def dataCmt (n : String) : List Char :=
  ("-- Dumping data for table `").data ++ n.data ++ ("`").data

/-- The insert statement (header plus row block, no terminator). -/
def insStmtL (t : Table) : List Char :=
  (insHeader t).data ++ (rowsBodyText t.rows).data

/-- The first replay chunk a table contributes (comment plus drop). -/
def chunkA (n : String) : List Char :=
  '\n' :: (structCmt n ++ ('\n' :: dropStmtL n))

/-- The insert chunk of a table with rows (comment plus insert). -/
def chunkD (t : Table) : List Char :=
  '\n' :: ('\n' :: (dataCmt t.name ++ ('\n' :: insStmtL t)))

/-- The comment-only tail a table without rows leaves before the next
chunk. -/
def junkTail (n : String) : List Char :=
  '\n' :: ('\n' :: (dataCmt n ++ ['\n']))

/-- The two header comment lines of the dump. -/
def headerL (now dbLabel : String) : List Char :=
  (("-- Database dump generated on ").data ++ now.data ++ ("\n").data) ++
    (("-- Database: ").data ++ dbLabel.data ++ ("\n\n").data)

/-! ## Basic lemmas about the string utilities -/

lemma mk_inj {a b : List Char} : String.mk a = String.mk b ↔ a = b := by
  constructor
  · intro h; exact congrArg String.data h
  · intro h; rw [h]

lemma mk_eq_empty {a : List Char} : (String.mk a = "") ↔ a = [] := mk_inj

lemma pyStrip_mk (l : List Char) : pyStrip (String.mk l) = String.mk (pyStripL l) := rfl

lemma countP_not_add {α : Type} (p : α → Bool) (l : List α) :
    l.countP p + l.countP (fun a => !p a) = l.length := by
  induction l with
  | nil => simp
  | cons a l ih => by_cases h : p a <;> simp [List.countP_cons, h] <;> omega

lemma runCommands_spec {σ : Type} (exec : σ → String → Except String σ) :
    ∀ (cs : List String) (st : σ),
      runCommands exec st cs =
        (execFold exec st (cs.filter (fun c => pyStrip c ≠ "")),
         cs.filter (fun c => pyStrip c ≠ "")) := by
  intro cs
  induction cs with
  | nil => intro st; rfl
  | cons c cs ih =>
    intro st
    by_cases h : pyStrip c = ""
    · simp [runCommands, h, ih, List.filter_cons]
    · cases hex : exec st c with
      | ok st2 => simp [runCommands, h, hex, ih, List.filter_cons, execFold]
      | error e => simp [runCommands, h, hex, ih, List.filter_cons, execFold]

lemma import_dump_ok {σ : Type} (exec : σ → String → Except String σ)
    (text : String) (st0 : σ) (newDb : Bool) :
    import_dump ⟨Except.ok (), Except.ok (), Except.ok text, exec⟩ st0 newDb =
      ((true, "Dump imported successfully"),
       execFold exec st0 (importStatements text),
       importStatements text) := by
  cases newDb <;>
    simp [import_dump, runCommands_spec, importStatements]

lemma execFold_oracle (oracle : String → Bool) :
    ∀ (cs : List String) (acc : List String),
      execFold (oracleExec oracle) acc cs = acc ++ cs.filter oracle := by
  intro cs
  induction cs with
  | nil => intro acc; simp [execFold]
  | cons c cs ih =>
    intro acc
    by_cases h : oracle c
    · simp [execFold, oracleExec, h, List.filter_cons] at ih ⊢
      simp [ih]
    · simp [execFold, oracleExec, h, List.filter_cons] at ih ⊢
      simp [ih]

/-! ## Claims C2, C3, C4 -/

/-- Claim C2: `import_dump` is best-effort per statement.  Whenever the
connection, the optional database creation and the file read succeed, it
returns `success=true` (the statement oracle plays no role in the
outcome), the statements that take effect are exactly the non-blank
statements the oracle accepts, in order; with exactly one failing
statement among the `N` non-blank statements, exactly `N - 1` take
effect.  Conversely a connection, database-creation or file-read failure
yields `success=false`. -/
theorem import_dump_best_effort (oracle : String → Bool) (text : String) (newDb : Bool) :
    ((import_dump ⟨Except.ok (), Except.ok (), Except.ok text, oracleExec oracle⟩ [] newDb).1 =
        (true, "Dump imported successfully")
      ∧ (import_dump ⟨Except.ok (), Except.ok (), Except.ok text, oracleExec oracle⟩ [] newDb).2.1 =
        (importStatements text).filter oracle)
    ∧ (∀ (σ : Type) (e : String) (cd : Except String Unit) (rf : Except String String)
        (ex : σ → String → Except String σ) (st0 : σ) (nd : Bool),
        (import_dump ⟨Except.error e, cd, rf, ex⟩ st0 nd).1.1 = false)
    ∧ (∀ (σ : Type) (e : String) (rf : Except String String)
        (ex : σ → String → Except String σ) (st0 : σ),
        (import_dump ⟨Except.ok (), Except.error e, rf, ex⟩ st0 true).1.1 = false)
    ∧ (∀ (σ : Type) (e : String) (ex : σ → String → Except String σ) (st0 : σ) (nd : Bool),
        (import_dump ⟨Except.ok (), Except.ok (), Except.error e, ex⟩ st0 nd).1.1 = false)
    ∧ ((importStatements text).countP (fun c => !oracle c) = 1 →
        ((importStatements text).filter oracle).length = (importStatements text).length - 1) := by
  refine ⟨⟨?_, ?_⟩, ?_, ?_, ?_, ?_⟩
  · rw [import_dump_ok]
  · rw [import_dump_ok]; exact execFold_oracle oracle _ []
  · intro σ e cd rf ex st0 nd; rfl
  · intro σ e rf ex st0; rfl
  · intro σ e ex st0 nd; cases nd <;> rfl
  · intro h
    have h2 : (importStatements text).countP (fun c => oracle c) +
          (importStatements text).countP (fun c => !oracle c) =
        (importStatements text).length :=
      countP_not_add _ _
    have h3 : (importStatements text).countP (fun c => oracle c) =
        ((importStatements text).filter oracle).length :=
      List.countP_eq_length_filter _ _
    have h4 : (importStatements text).countP (fun c => !oracle c) = 1 := h
    omega

/-- Witness for C2: a dump of three statements, one of which fails:
success is still reported and exactly two statements take effect. -/
theorem import_dump_best_effort_witness :
    ((importStatements ("CREATE TABLE a;BAD;INSERT x")).countP
        (fun c => !(fun s => s ≠ ("BAD") : String → Bool) c) = 1)
    ∧ ((importStatements ("CREATE TABLE a;BAD;INSERT x")).filter
        (fun s => s ≠ ("BAD") : String → Bool)).length =
      (importStatements ("CREATE TABLE a;BAD;INSERT x")).length - 1
    ∧ (import_dump ⟨Except.ok (), Except.ok (), Except.ok ("CREATE TABLE a;BAD;INSERT x"),
        oracleExec (fun s => s ≠ ("BAD"))⟩ [] true).1 = (true, "Dump imported successfully") := by
  refine ⟨by decide, ?_, ?_⟩
  · exact (import_dump_best_effort (fun s => s ≠ ("BAD")) ("CREATE TABLE a;BAD;INSERT x")
      true).2.2.2.2 (by decide)
  · exact (import_dump_best_effort (fun s => s ≠ ("BAD")) ("CREATE TABLE a;BAD;INSERT x")
      true).1.1

/-- Claim C3: each mutating public operation (`import_dump`, `export_dump`,
`compress_file`, `decompress_file`) is a total function into an
`OperationResult` pair: it either returns its success pair, or returns
`success=false` with a message carrying the underlying failure — no
fault escapes the operation's boundary. -/
theorem operations_return_result :
    (∀ (σ : Type) (env : ImportEnv σ) (st0 : σ) (nd : Bool),
      (import_dump env st0 nd).1 = (true, "Dump imported successfully")
      ∨ ((import_dump env st0 nd).1.1 = false
          ∧ ∃ e, (import_dump env st0 nd).1.2 = "Error importing dump: " ++ e))
    ∧ (∀ (conn : Except String Unit) (fetch : Except String (List Table)) (now lbl : String),
      (export_dump conn fetch now lbl).1 = (true, "Dump exported successfully")
      ∨ ((export_dump conn fetch now lbl).1.1 = false
          ∧ ∃ e, (export_dump conn fetch now lbl).1.2 = "Error exporting dump: " ++ e))
    ∧ (∀ z : Except String Unit,
      compress_file z = (true, "File compressed successfully")
      ∨ ((compress_file z).1 = false ∧ ∃ e, (compress_file z).2 = "Error compressing file: " ++ e))
    ∧ (∀ z : Except String Unit,
      decompress_file z = (true, "File decompressed successfully")
      ∨ ((decompress_file z).1 = false
          ∧ ∃ e, (decompress_file z).2 = "Error decompressing file: " ++ e)) := by
  refine ⟨?_, ?_, ?_, ?_⟩
  · intro σ env st0 nd
    obtain ⟨conn, cd, rf, ex⟩ := env
    cases conn with
    | error e => exact Or.inr ⟨rfl, e, rfl⟩
    | ok u =>
      cases nd with
      | false =>
        cases rf with
        | error e => exact Or.inr ⟨rfl, e, rfl⟩
        | ok text => exact Or.inl rfl
      | true =>
        cases cd with
        | error e => exact Or.inr ⟨rfl, e, rfl⟩
        | ok u2 =>
          cases rf with
          | error e => exact Or.inr ⟨rfl, e, rfl⟩
          | ok text => exact Or.inl rfl
  · intro conn fetch now lbl
    cases conn with
    | error e => exact Or.inr ⟨rfl, e, rfl⟩
    | ok u =>
      cases fetch with
      | error e => exact Or.inr ⟨rfl, e, rfl⟩
      | ok tables => exact Or.inl rfl
  · intro z
    cases z with
    | error e => exact Or.inr ⟨rfl, e, rfl⟩
    | ok u => exact Or.inl rfl
  · intro z
    cases z with
    | error e => exact Or.inr ⟨rfl, e, rfl⟩
    | ok u => exact Or.inl rfl

/-- Claim C4: `import_dump` splits the dump text on the literal `;` and
passes every non-blank command to the engine exactly once, in original
dump order: the replay trace equals the non-blank filtering of the split,
which is an order-preserving sublist of the split — no reordering, no
duplication, no drop. -/
theorem import_dump_replay_order (σ : Type) (exec : σ → String → Except String σ)
    (st0 : σ) (text : String) (nd : Bool) :
    (import_dump ⟨Except.ok (), Except.ok (), Except.ok text, exec⟩ st0 nd).2.2 =
      importStatements text
    ∧ importStatements text = (pySplit ';' text).filter (fun c => pyStrip c ≠ "")
    ∧ List.Sublist (importStatements text) (pySplit ';' text) := by
  refine ⟨?_, rfl, ?_⟩
  · rw [import_dump_ok]
  · exact List.filter_sublist _

/-! ## Claim C7: connection retry -/

lemma connectLoop_calls_le (env : ConnEnv) :
    ∀ (rem attempts : Nat), (connectLoop env attempts rem).2.1 ≤ attempts + rem := by
  intro rem
  induction rem with
  | zero => intro attempts; simp [connectLoop]
  | succ rem ih =>
    intro attempts
    cases h : env.attempt attempts with
    | ok u => simp [connectLoop, h]
    | error e =>
      simp only [connectLoop, h]
      have := ih (attempts + 1)
      omega

lemma connectLoop_sleeps (env : ConnEnv) :
    ∀ (rem attempts : Nat) (d : Nat),
      d ∈ (connectLoop env attempts rem).2.2 → d = RETRY_DELAY := by
  intro rem
  induction rem with
  | zero => intro attempts d h; simp [connectLoop] at h
  | succ rem ih =>
    intro attempts d h
    cases ha : env.attempt attempts with
    | ok u => simp [connectLoop, ha] at h
    | error e =>
      simp only [connectLoop, ha, List.mem_cons] at h
      rcases h with h | h
      · exact h
      · exact ih (attempts + 1) d h

lemma connectLoop_first_success (env : ConnEnv) :
    ∀ (k rem attempts : Nat), k < rem →
      (∀ i, i < k → ∃ e, env.attempt (attempts + i) = Except.error e) →
      env.attempt (attempts + k) = Except.ok () →
      (connectLoop env attempts rem).1 = Except.ok () ∧
        (connectLoop env attempts rem).2.1 = attempts + k + 1 := by
  intro k
  induction k with
  | zero =>
    intro rem attempts hlt _ hk
    obtain ⟨rem2, rfl⟩ : ∃ r, rem = r + 1 := ⟨rem - 1, by omega⟩
    simp only [Nat.add_zero] at hk
    simp [connectLoop, hk]
  | succ k ih =>
    intro rem attempts hlt hfail hk
    obtain ⟨rem2, rfl⟩ : ∃ r, rem = r + 1 := ⟨rem - 1, by omega⟩
    obtain ⟨e, he⟩ := hfail 0 (by omega)
    simp only [Nat.add_zero] at he
    have step := ih rem2 (attempts + 1) (by omega)
      (fun i hi => by
        have := hfail (i + 1) (by omega)
        simpa [Nat.add_assoc, Nat.add_comm 1 i] using this)
      (by simpa [Nat.add_assoc, Nat.add_comm 1 k] using hk)
    simp only [connectLoop, he]
    exact ⟨step.1, by simp [step.2]; omega⟩

lemma connectLoop_exhaust (env : ConnEnv) :
    ∀ (rem attempts : Nat),
      (∀ i, i < rem → ∃ e, env.attempt (attempts + i) = Except.error e) →
      (connectLoop env attempts rem).1 =
        Except.error "Failed to connect to database after multiple attempts" := by
  intro rem
  induction rem with
  | zero => intro attempts _; rfl
  | succ rem ih =>
    intro attempts hfail
    obtain ⟨e, he⟩ := hfail 0 (by omega)
    simp only [Nat.add_zero] at he
    simp only [connectLoop, he]
    exact ih (attempts + 1) (fun i hi => by
      have := hfail (i + 1) (by omega)
      simpa [Nat.add_assoc, Nat.add_comm 1 i] using this)

/-- Claim C7 (amended): `get_db_connection` makes at most `MAX_RETRIES`
connection attempts, sleeps the fixed `RETRY_DELAY` between attempts (no
exponential growth), returns on the first successful attempt, and after
exhausting the budget fails with the fixed terminal message — which does
not carry the last underlying cause. -/
theorem get_db_connection_retry_policy (env : ConnEnv) :
    (get_db_connection env).2.1 ≤ MAX_RETRIES
    ∧ (∀ d ∈ (get_db_connection env).2.2, d = RETRY_DELAY)
    ∧ (∀ k, k < MAX_RETRIES →
        (∀ i, i < k → ∃ e, env.attempt i = Except.error e) →
        env.attempt k = Except.ok () →
        (get_db_connection env).1 = Except.ok () ∧ (get_db_connection env).2.1 = k + 1)
    ∧ ((∀ i, i < MAX_RETRIES → ∃ e, env.attempt i = Except.error e) →
        (get_db_connection env).1 =
          Except.error "Failed to connect to database after multiple attempts") := by
  refine ⟨?_, ?_, ?_, ?_⟩
  · have := connectLoop_calls_le env MAX_RETRIES 0
    simpa [get_db_connection] using this
  · intro d hd
    exact connectLoop_sleeps env MAX_RETRIES 0 d hd
  · intro k hk hfail hok
    have := connectLoop_first_success env k MAX_RETRIES 0 hk
      (by simpa using hfail) (by simpa using hok)
    simpa [get_db_connection] using this
  · intro hfail
    exact connectLoop_exhaust env MAX_RETRIES 0 (by simpa using hfail)

/-- Witness for C7: with the first attempt failing and the second
succeeding, the connection is returned after exactly two attempts. -/
theorem get_db_connection_retry_policy_witness :
    (1 < MAX_RETRIES)
    ∧ (get_db_connection ⟨fun i => if i = 0 then Except.error ("boom") else Except.ok ()⟩).1 =
        Except.ok ()
    ∧ (get_db_connection ⟨fun i => if i = 0 then Except.error ("boom") else Except.ok ()⟩).2.1 = 2 := by
  have h := (get_db_connection_retry_policy
      ⟨fun i => if i = 0 then Except.error ("boom") else Except.ok ()⟩).2.2.1 1
    (by decide)
    (fun i hi => by
      have : i = 0 := by omega
      exact ⟨("boom"), by simp [this]⟩)
    (by simp)
  exact ⟨by decide, h.1, h.2⟩

/-- Counterexample for C7 as stated: exhausting the retry budget raises a
fixed message whatever the underlying causes were — two environments
whose attempts fail with different causes produce the identical terminal
error, so the error does not carry the last underlying cause. -/
theorem get_db_connection_fixed_error :
    (get_db_connection ⟨fun _ => Except.error ("boom")⟩).1 =
      Except.error "Failed to connect to database after multiple attempts"
    ∧ (get_db_connection ⟨fun _ => Except.error ("a different cause")⟩).1 =
      (get_db_connection ⟨fun _ => Except.error ("boom")⟩).1 :=
  ⟨rfl, rfl⟩

/-! ## Claim C8: the placeholder chunk split -/

/-- Claim C8 evaluation at the failing input: `split_dump_file` does not
partition the dump — it returns the whole input path once per worker, so
with 2 workers on the two-statement dump each statement is replayed by
every worker (here: each worker's replay trace is the whole dump), not a
disjoint cover. -/
theorem split_dump_file_no_partition :
    split_dump_file ("dump.sql") 2 = [("dump.sql"), ("dump.sql")]
    ∧ (import_dump ⟨Except.ok (), Except.ok (), Except.ok ("A;B"),
        oracleExec (fun _ => true)⟩ [] true).2.2 = [("A"), ("B")]
    ∧ (∀ (p : String) (n : Nat), split_dump_file p n = List.replicate n p) := by
  exact ⟨rfl, by decide, fun p n => rfl⟩

/-! ## Claim C10: cleanup deletes the caller's dump file -/

lemma not_mem_foldl_erase :
    ∀ (cs : List String) (acc : List String) (a : String),
      a ∉ acc → a ∉ cs.foldl (fun l c => l.erase c) acc := by
  intro cs
  induction cs with
  | nil => intro acc a h; simpa using h
  | cons c cs ih =>
    intro acc a h
    simp only [List.foldl_cons]
    exact ih (acc.erase c) a (fun hm => h (List.erase_subset _ _ hm))

/-- Claim C10: because `split_dump_file`'s placeholder returns the input
path `num_threads` times, the cleanup loop of `threaded_import` removes
the caller's original dump file: whenever at least one worker ran, the
input path is no longer present in the file system afterwards. -/
theorem threaded_import_removes_input_dump (fs : List String) (p : String) (n : Nat)
    (hnd : fs.Nodup) (hn : 0 < n) : p ∉ threaded_import_fs fs p n := by
  obtain ⟨m, rfl⟩ : ∃ m, n = m + 1 := ⟨n - 1, by omega⟩
  unfold threaded_import_fs threaded_import_cleanup split_dump_file
  rw [List.replicate_succ]
  simp only [List.foldl_cons]
  exact not_mem_foldl_erase _ _ _ hnd.not_mem_erase

/-- Witness for C10: a two-file file system loses its dump file. -/
theorem threaded_import_removes_input_dump_witness :
    ([("dump.sql"), ("other.txt")] : List String).Nodup ∧ 0 < 2 ∧
      ("dump.sql") ∉ threaded_import_fs [("dump.sql"), ("other.txt")] ("dump.sql") 2 :=
  ⟨by decide, by decide,
    threaded_import_removes_input_dump _ _ _ (by decide) (by decide)⟩

/-! ## Decimal digits round-trip and claim C9 -/

lemma digitChar_toNat (m : Nat) (h : m < 10) : (digitChar m).toNat = 48 + m := by
  interval_cases m <;> rfl

lemma digitChar_isDigit (m : Nat) : (digitChar m).isDigit = true := by
  unfold digitChar
  split <;> decide

lemma natDigitsAux_fold (fuel : Nat) :
    ∀ n, n < fuel →
      (natDigitsAux fuel n).foldl (fun a c => a * 10 + (c.toNat - 48)) 0 = n := by
  induction fuel with
  | zero => intro n h; omega
  | succ fuel ih =>
    intro n h
    rw [natDigitsAux]
    by_cases h10 : n < 10
    · simp only [h10, if_true, List.foldl_cons, List.foldl_nil]
      rw [digitChar_toNat n h10]
      omega
    · simp only [h10, if_false, List.foldl_append, List.foldl_cons, List.foldl_nil]
      have hdiv : n / 10 < n := Nat.div_lt_self (by omega) (by omega)
      rw [ih (n / 10) (by omega)]
      rw [digitChar_toNat (n % 10) (Nat.mod_lt n (by omega))]
      omega

lemma natRepr_inj : Function.Injective natRepr := by
  intro m n h
  have hd : natDigitsAux (m + 1) m = natDigitsAux (n + 1) n := mk_inj.mp h
  have hm := natDigitsAux_fold (m + 1) m (by omega)
  have hn := natDigitsAux_fold (n + 1) n (by omega)
  rw [hd, hn] at hm
  omega

lemma threadDbName_inj (pfx : String) : Function.Injective (threadDbName pfx) := by
  intro i j h
  apply natRepr_inj
  have hd := congrArg String.data h
  simp only [threadDbName, String.data_append, List.append_assoc] at hd
  have h1 := List.append_cancel_left hd
  have h2 : (natRepr i).data = (natRepr j).data := List.append_cancel_left h1
  exact mk_inj.mpr h2

lemma import_chunk_record_inj (pfx : String) (outcome : Nat → Bool × String) :
    Function.Injective (import_chunk_record pfx outcome) := by
  intro i j h
  exact threadDbName_inj pfx (congrArg ThreadResult.db_name h)

/-- Claim C9: once every worker has been joined, the shared result list —
whatever interleaving the concurrent (GIL-atomic) appends landed in — is
a permutation of the per-worker records: its length equals the worker
count and each worker's record occurs exactly once; no append is lost. -/
theorem threaded_import_join_complete (pfx : String) (outcome : Nat → Bool × String)
    (n : Nat) (order : List Nat) (h : order.Perm (List.range n)) :
    (threaded_results pfx outcome order).length = n
    ∧ List.Perm (threaded_results pfx outcome order)
        ((List.range n).map (import_chunk_record pfx outcome))
    ∧ ∀ i, i < n →
        (threaded_results pfx outcome order).count (import_chunk_record pfx outcome i) = 1 := by
  have hperm : List.Perm (threaded_results pfx outcome order)
      ((List.range n).map (import_chunk_record pfx outcome)) := h.map _
  refine ⟨?_, hperm, ?_⟩
  · rw [hperm.length_eq, List.length_map, List.length_range]
  · intro i hi
    rw [hperm.count_eq]
    have hnodup : ((List.range n).map (import_chunk_record pfx outcome)).Nodup :=
      (List.nodup_range n).map (import_chunk_record_inj pfx outcome)
    have hmem : import_chunk_record pfx outcome i ∈
        (List.range n).map (import_chunk_record pfx outcome) :=
      List.mem_map_of_mem _ (List.mem_range.mpr hi)
    have hle := List.nodup_iff_count_le_one.mp hnodup (import_chunk_record pfx outcome i)
    have hpos := List.count_pos_iff.mpr hmem
    omega

/-- Witness for C9: three workers appending in completion order 2, 0, 1
still yield three records, one per worker. -/
theorem threaded_import_join_complete_witness :
    ([2, 0, 1] : List Nat).Perm (List.range 3)
    ∧ (threaded_results ("bench") (fun _ => (true, "ok")) [2, 0, 1]).length = 3 := by
  refine ⟨by decide, ?_⟩
  exact (threaded_import_join_complete ("bench") (fun _ => (true, "ok")) 3 [2, 0, 1]
    (by decide)).1

/-! ## Claim C6: value serialization -/

lemma escQuoteL_flatMap (l : List Char) :
    escQuoteL l = l.flatMap (fun c => if c = squote then [squote, squote] else [c]) := by
  induction l with
  | nil => rfl
  | cons c r ih =>
    by_cases h : c = squote <;> simp [escQuoteL, h, ih]

lemma natDigitsAux_all_digit (fuel : Nat) :
    ∀ n, (natDigitsAux fuel n).all Char.isDigit = true := by
  induction fuel with
  | zero => intro n; rfl
  | succ fuel ih =>
    intro n
    rw [natDigitsAux]
    by_cases h10 : n < 10
    · simp [h10, digitChar_isDigit]
    · simp [h10, digitChar_isDigit, ih (n / 10)]

/-- Claim C6: the exporter's value serialization: an absent value is
written as `NULL`; a numeric value as the bare numeric literal (digits
with an optional leading minus sign, no quotes); every other value as its
single-quoted textual representation where each embedded single quote is
doubled and every other character is kept verbatim (no other escaping). -/
theorem serialize_value_policy :
    serializeValue SqlValue.null = "NULL"
    ∧ (∀ n : Int, serializeValue (SqlValue.num n) = pyStrInt n
        ∧ (pyStrInt n).data.all (fun c => c.isDigit || c = '-') = true)
    ∧ (∀ s : String, serializeValue (SqlValue.str s) = "'" ++ pyReplaceQuote s ++ "'"
        ∧ (pyReplaceQuote s).data =
            s.data.flatMap (fun c => if c = squote then [squote, squote] else [c])) := by
  refine ⟨rfl, ?_, ?_⟩
  · intro n
    refine ⟨rfl, ?_⟩
    have hdig := natDigitsAux_all_digit (n.natAbs + 1) n.natAbs
    rw [List.all_eq_true] at hdig
    by_cases hneg : n < 0
    · simp only [pyStrInt, if_pos hneg, String.data_append]
      rw [List.all_eq_true]
      intro c hc
      rcases List.mem_append.mp hc with hc | hc
      · simp only [show ("-" : String).data = ['-'] from rfl, List.mem_singleton] at hc
        simp [hc]
      · simp [hdig c hc]
    · simp only [pyStrInt, if_neg hneg]
      rw [List.all_eq_true]
      intro c hc
      simp [hdig c hc]
  · intro s
    exact ⟨rfl, escQuoteL_flatMap s.data⟩

/-! ## Split/join algebra for the statement separator and for lines -/

lemma splitOnChar_ne_nil (c : Char) (l : List Char) : splitOnChar c l ≠ [] := by
  induction l with
  | nil => simp [splitOnChar]
  | cons a r ih =>
    by_cases h : a = c
    · simp [splitOnChar, h]
    · simp only [splitOnChar, if_neg h]
      cases hs : splitOnChar c r with
      | nil => simp [consHead]
      | cons s ss => simp [consHead]

lemma splitOnChar_no_sep (c : Char) (l : List Char) (h : ∀ x ∈ l, x ≠ c) :
    splitOnChar c l = [l] := by
  induction l with
  | nil => rfl
  | cons a r ih =>
    have ha : a ≠ c := h a (by simp)
    have ih2 := ih (fun x hx => h x (by simp [hx]))
    simp [splitOnChar, if_neg ha, ih2, consHead]

lemma splitOnChar_append_sep (c : Char) (a b : List Char) :
    splitOnChar c (a ++ c :: b) = splitOnChar c a ++ splitOnChar c b := by
  induction a with
  | nil => simp [splitOnChar]
  | cons d a ih =>
    by_cases h : d = c
    · simp [splitOnChar, h, ih]
    · obtain ⟨s, ss, hss⟩ : ∃ s ss, splitOnChar c a = s :: ss := by
        cases hs : splitOnChar c a with
        | nil => exact absurd hs (splitOnChar_ne_nil c a)
        | cons s ss => exact ⟨s, ss, rfl⟩
      simp only [List.cons_append, splitOnChar, if_neg h, List.append_eq]
      rw [ih, hss]
      simp [consHead]

lemma joinWith_splitOnChar (c : Char) (l : List Char) :
    joinWith c (splitOnChar c l) = l := by
  induction l with
  | nil => rfl
  | cons a r ih =>
    obtain ⟨s, ss, hss⟩ : ∃ s ss, splitOnChar c r = s :: ss := by
      cases hs : splitOnChar c r with
      | nil => exact absurd hs (splitOnChar_ne_nil c r)
      | cons s ss => exact ⟨s, ss, rfl⟩
    by_cases h : a = c
    · rw [h]
      simp only [splitOnChar, if_pos rfl, hss]
      rw [hss] at ih
      cases ss with
      | nil => simp only [joinWith] at ih ⊢; simp [ih]
      | cons u us => simp only [joinWith] at ih ⊢; simp [ih]
    · simp only [splitOnChar, if_neg h, hss, consHead]
      rw [hss] at ih
      cases ss with
      | nil => simp only [joinWith] at ih ⊢; simp [ih]
      | cons u us =>
        simp only [joinWith] at ih ⊢
        simp [ih]

lemma splitOnChar_head (c : Char) (l : List Char) :
    ∃ rest, splitOnChar c l = l.takeWhile (fun x => !(x == c)) :: rest := by
  induction l with
  | nil => exact ⟨[], rfl⟩
  | cons a r ih =>
    by_cases h : a = c
    · refine ⟨splitOnChar c r, ?_⟩
      simp [splitOnChar, h, List.takeWhile_cons]
    · obtain ⟨rest, hrest⟩ := ih
      refine ⟨rest, ?_⟩
      simp [splitOnChar, if_neg h, hrest, consHead, List.takeWhile_cons, h]

lemma takeWhile_append_all {α : Type} {p : α → Bool} (a b : List α)
    (h : ∀ x ∈ a, p x = true) : (a ++ b).takeWhile p = a ++ b.takeWhile p := by
  induction a with
  | nil => simp
  | cons x a ih =>
    have hx := h x (by simp)
    simp [List.takeWhile_cons, hx, ih (fun y hy => h y (by simp [hy]))]

lemma dropWhile_append_all {α : Type} {p : α → Bool} (a b : List α)
    (h : ∀ x ∈ a, p x = true) : (a ++ b).dropWhile p = b.dropWhile p := by
  induction a with
  | nil => simp
  | cons x a ih =>
    have hx := h x (by simp)
    simp [List.dropWhile_cons, hx, ih (fun y hy => h y (by simp [hy]))]

lemma dropWhile_eq_nil_of_all {α : Type} {p : α → Bool} (a : List α)
    (h : ∀ x ∈ a, p x = true) : a.dropWhile p = [] := by
  induction a with
  | nil => simp
  | cons x a ih =>
    have hx := h x (by simp)
    simp [List.dropWhile_cons, hx, ih (fun y hy => h y (by simp [hy]))]

/-! ## Junk (blank and comment) lines -/

lemma isJunkLine_nil : isJunkLine [] = true := rfl

lemma isJunkLine_comment (r : List Char) : isJunkLine ('-' :: '-' :: r) = true := by
  have hsp : isPySpace '-' = false := rfl
  simp [isJunkLine, List.dropWhile_cons, hsp, List.take]

lemma isJunkLine_false (c : Char) (r : List Char) (h1 : isPySpace c = false)
    (h2 : c ≠ '-') : isJunkLine (c :: r) = false := by
  have hdd : ("--").data = ['-', '-'] := rfl
  cases r with
  | nil => simp [isJunkLine, List.dropWhile_cons, h1, List.take, hdd, h2]
  | cons x r2 => simp [isJunkLine, List.dropWhile_cons, h1, List.take, hdd, h2]

lemma skipJunk_append (j stmt : List Char)
    (hj : ∀ ln ∈ splitOnChar '\n' j, isJunkLine ln = true)
    (hs : isJunkLine (stmt.takeWhile (fun x => !(x == '\n'))) = false) :
    skipJunk (j ++ '\n' :: stmt) = stmt := by
  unfold skipJunk
  rw [splitOnChar_append_sep, dropWhile_append_all _ _ hj]
  obtain ⟨rest, hrest⟩ := splitOnChar_head '\n' stmt
  rw [hrest, List.dropWhile_cons_of_neg (by simp [hs]), ← hrest, joinWith_splitOnChar]

lemma skipJunk_all (j : List Char)
    (hj : ∀ ln ∈ splitOnChar '\n' j, isJunkLine ln = true) : skipJunk j = [] := by
  unfold skipJunk
  rw [dropWhile_eq_nil_of_all _ hj]
  rfl

/-! ## Character exclusion infrastructure -/

lemma noChar_append {c : Char} {a b : List Char} (ha : NoChar c a) (hb : NoChar c b) :
    NoChar c (a ++ b) := by
  intro x hx
  rcases List.mem_append.mp hx with h | h
  · exact ha x h
  · exact hb x h

lemma noChar_cons {c x : Char} {l : List Char} (hx : x ≠ c) (hl : NoChar c l) :
    NoChar c (x :: l) := by
  intro y hy
  rcases List.mem_cons.mp hy with h | h
  · exact h ▸ hx
  · exact hl y h

lemma wfNameB_no_semi {s : String} (h : wfNameB s = true) : NoChar ';' s.data := by
  rw [wfNameB, List.all_eq_true] at h
  intro x hx
  have := h x hx
  simp only [Bool.and_eq_true, decide_eq_true_eq] at this
  exact this.1.1

lemma wfNameB_no_backtick {s : String} (h : wfNameB s = true) : NoChar backtick s.data := by
  rw [wfNameB, List.all_eq_true] at h
  intro x hx
  have := h x hx
  simp only [Bool.and_eq_true, decide_eq_true_eq] at this
  exact this.1.2

lemma wfNameB_no_nl {s : String} (h : wfNameB s = true) : NoChar '\n' s.data := by
  rw [wfNameB, List.all_eq_true] at h
  intro x hx
  have := h x hx
  simp only [Bool.and_eq_true, decide_eq_true_eq] at this
  exact this.2

lemma escQuoteL_mem {x : Char} {l : List Char} (h : x ∈ escQuoteL l) :
    x = squote ∨ x ∈ l := by
  induction l with
  | nil => simp [escQuoteL] at h
  | cons c r ih =>
    by_cases hc : c = squote
    · simp only [escQuoteL, if_pos hc] at h
      rcases List.mem_cons.mp h with h | h
      · exact Or.inl h
      · rcases List.mem_cons.mp h with h | h
        · exact Or.inl h
        · rcases ih h with h | h
          · exact Or.inl h
          · exact Or.inr (by simp [h])
    · simp only [escQuoteL, if_neg hc] at h
      rcases List.mem_cons.mp h with h | h
      · exact Or.inr (by simp [h])
      · rcases ih h with h | h
        · exact Or.inl h
        · exact Or.inr (by simp [h])

lemma isDigit_ne_semi {c : Char} (h : c.isDigit = true) : c ≠ ';' := by
  intro he
  rw [he] at h
  exact absurd h (by decide)

lemma natDigitsAux_no_semi (fuel n : Nat) : NoChar ';' (natDigitsAux fuel n) := by
  intro x hx
  have hall := natDigitsAux_all_digit fuel n
  rw [List.all_eq_true] at hall
  exact isDigit_ne_semi (hall x hx)

lemma serializeValue_no_semi (v : SqlValue) (h : wfValB v = true) :
    NoChar ';' (serializeValue v).data := by
  cases v with
  | null => intro x hx; simp only [serializeValue] at hx; fin_cases hx <;> decide
  | num n =>
    simp only [serializeValue, pyStrInt]
    by_cases hn : n < 0
    · simp only [if_pos hn, String.data_append]
      refine noChar_append ?_ (natDigitsAux_no_semi _ _)
      intro x hx
      simp only [show ("-" : String).data = ['-'] from rfl, List.mem_singleton] at hx
      simp [hx]
    · simp only [if_neg hn]
      exact natDigitsAux_no_semi _ _
  | str s =>
    simp only [serializeValue, String.data_append, List.append_assoc]
    rw [wfValB, List.all_eq_true] at h
    refine noChar_append ?_ (noChar_append ?_ ?_)
    · intro x hx
      simp only [show ("'" : String).data = [squote] from rfl, List.mem_singleton] at hx
      simp [hx, squote]
    · intro x hx
      rcases escQuoteL_mem hx with h2 | h2
      · simp [h2, squote]
      · have := h x h2
        simpa using this
    · intro x hx
      simp only [show ("'" : String).data = [squote] from rfl, List.mem_singleton] at hx
      simp [hx, squote]

/-! ## Parser round-trip lemmas -/

lemma expectPfx_append (p : List Char) : ∀ r, expectPfx p (p ++ r) = some r := by
  induction p with
  | nil => intro r; rfl
  | cons c p ih => intro r; simp [expectPfx, ih]

lemma expectChar_cons (c : Char) (r : List Char) : expectChar c (c :: r) = some r := by
  simp [expectChar]

lemma parseName_round (n : String) (h : NoChar backtick n.data) (r : List Char) :
    parseName (n.data ++ backtick :: r) = some (n, r) := by
  have hall : ∀ x ∈ n.data, (fun c => decide (c ≠ backtick)) x = true := by
    intro x hx
    simp [h x hx]
  unfold parseName
  rw [dropWhile_append_all _ _ hall, takeWhile_append_all _ _ hall]
  rw [List.dropWhile_cons_of_neg (by simp), List.takeWhile_cons_of_neg (by simp)]
  simp

lemma scanQuoted_esc (s : List Char) :
    ∀ r : List Char, r.head? ≠ some squote →
      scanQuoted (escQuoteL s ++ squote :: r) = some (s, r) := by
  induction s with
  | nil =>
    intro r hr
    cases r with
    | nil => simp [escQuoteL, scanQuoted]
    | cons c2 r2 =>
      have hc2 : ¬ c2 = squote := by
        intro he
        exact hr (by simp [he])
      simp [escQuoteL, scanQuoted, hc2]
  | cons c s ih =>
    intro r hr
    by_cases hc : c = squote
    · simp only [escQuoteL, if_pos hc, List.cons_append]
      rw [scanQuoted.eq_def]
      simp [ih r hr, hc]
    · simp only [escQuoteL, if_neg hc, List.cons_append]
      rw [scanQuoted.eq_def]
      simp [ih r hr, hc]

lemma natDigitsAux_ne_nil (fuel n : Nat) (h : 0 < fuel) : natDigitsAux fuel n ≠ [] := by
  obtain ⟨f, rfl⟩ : ∃ f, fuel = f + 1 := ⟨fuel - 1, by omega⟩
  rw [natDigitsAux]
  by_cases h10 : n < 10 <;> simp [h10]

lemma parseNatL_natDigits (n : Nat) : parseNatL (natDigitsAux (n + 1) n) = some n := by
  unfold parseNatL
  rw [if_pos]
  · rw [natDigitsAux_fold (n + 1) n (by omega)]
  · exact ⟨natDigitsAux_ne_nil _ _ (by omega), natDigitsAux_all_digit _ _⟩

lemma digit_head_of_natDigits (n : Nat) :
    ∃ c cs, natDigitsAux (n + 1) n = c :: cs ∧ c.isDigit = true := by
  cases hd : natDigitsAux (n + 1) n with
  | nil => exact absurd hd (natDigitsAux_ne_nil _ _ (by omega))
  | cons c cs =>
    refine ⟨c, cs, rfl, ?_⟩
    have := natDigitsAux_all_digit (n + 1) n
    rw [hd, List.all_cons, Bool.and_eq_true] at this
    exact this.1

lemma isDigit_not_special {c : Char} (h : c.isDigit = true) :
    c ≠ ')' ∧ c ≠ ',' ∧ c ≠ 'N' ∧ c ≠ squote ∧ c ≠ '-' := by
  refine ⟨?_, ?_, ?_, ?_, ?_⟩ <;>
    [skip; skip; skip; skip; skip] <;>
    (intro he; rw [he] at h; exact absurd h (by decide))

lemma pyStrInt_head (n : Int) :
    ∃ c cs, (pyStrInt n).data = c :: cs ∧ (c = '-' ∨ c.isDigit = true) := by
  by_cases hn : n < 0
  · refine ⟨'-', natDigitsAux (n.natAbs + 1) n.natAbs, ?_, Or.inl rfl⟩
    simp [pyStrInt, if_pos hn, String.data_append,
      show ("-" : String).data = ['-'] from rfl, natRepr]
  · obtain ⟨c, cs, hd, hdig⟩ := digit_head_of_natDigits n.natAbs
    refine ⟨c, cs, ?_, Or.inr hdig⟩
    simp [pyStrInt, if_neg hn, natRepr, hd]

lemma quote_data : ("'" : String).data = [squote] := rfl

lemma pyReplaceQuote_data (s : String) : (pyReplaceQuote s).data = escQuoteL s.data := rfl

lemma parseIntL_pyStrInt (n : Int) : parseIntL (pyStrInt n).data = some n := by
  by_cases hn : n < 0
  · have hdata : (pyStrInt n).data = '-' :: natDigitsAux (n.natAbs + 1) n.natAbs := by
      simp [pyStrInt, if_pos hn, String.data_append,
        show ("-" : String).data = ['-'] from rfl, natRepr]
    have hcalc : parseIntL ('-' :: natDigitsAux (n.natAbs + 1) n.natAbs) =
        some (-(n.natAbs : Int)) := by
      rw [parseIntL, if_pos rfl, parseNatL_natDigits]
    rw [hdata, hcalc, Int.ofNat_natAbs_of_nonpos (by omega), neg_neg]
  · obtain ⟨c, cs, hd, hct⟩ := pyStrInt_head n
    have hdata : (pyStrInt n).data = natDigitsAux (n.natAbs + 1) n.natAbs := by
      simp [pyStrInt, if_neg hn, natRepr]
    have hc : ¬ c = '-' := by
      rcases hct with hct | hct
      · rw [hdata] at hd
        have hall := natDigitsAux_all_digit (n.natAbs + 1) n.natAbs
        rw [hd, List.all_cons, Bool.and_eq_true] at hall
        intro _
        rw [hct] at hall
        exact absurd hall.1 (by decide)
      · exact (isDigit_not_special hct).2.2.2.2
    have hcalc : parseIntL (natDigitsAux (n.natAbs + 1) n.natAbs) =
        some ((n.natAbs : Int)) := by
      rw [hdata] at hd
      rw [hd, parseIntL, if_neg hc, ← hd, parseNatL_natDigits]
    rw [hdata, hcalc, Int.natAbs_of_nonneg (by omega)]

lemma serializeValue_head (v : SqlValue) :
    ∃ c cs, (serializeValue v).data = c :: cs ∧ c ≠ ')' ∧ c ≠ ',' := by
  cases v with
  | null => exact ⟨'N', ['U', 'L', 'L'], rfl, by decide, by decide⟩
  | num n =>
    obtain ⟨c, cs, hd, hct⟩ := pyStrInt_head n
    refine ⟨c, cs, hd, ?_, ?_⟩
    · rcases hct with h | h
      · simp [h]
      · exact (isDigit_not_special h).1
    · rcases hct with h | h
      · simp [h]
      · exact (isDigit_not_special h).2.1
  | str s =>
    refine ⟨squote, escQuoteL s.data ++ [squote], ?_, by decide, by decide⟩
    show (("'" ++ pyReplaceQuote s) ++ "'").data = _
    rw [String.data_append, String.data_append, quote_data, pyReplaceQuote_data]
    simp

lemma take4_cons_ne_null {c : Char} (cs : List Char) (h : c ≠ 'N') :
    ¬ (c :: cs).take 4 = ("NULL").data := by
  intro habs
  have h2 := congrArg List.head? habs
  rw [show ("NULL").data = ['N', 'U', 'L', 'L'] from rfl] at h2
  simp only [List.take_succ_cons, List.head?] at h2
  exact h (by simpa using h2)

lemma parseValue_ser (v : SqlValue) (hwf : wfValB v = true) (rest : List Char)
    (hrest : rest.head? = some ',' ∨ rest.head? = some ')') :
    parseValue ((serializeValue v).data ++ rest) = some (v, rest) := by
  obtain ⟨c0, r0, hr0, hc0⟩ : ∃ c0 r0, rest = c0 :: r0 ∧ (c0 = ',' ∨ c0 = ')') := by
    cases rest with
    | nil => simp at hrest
    | cons x r0 =>
      refine ⟨x, r0, rfl, ?_⟩
      simp only [List.head?, Option.some.injEq] at hrest
      rcases hrest with h | h
      · exact Or.inl h
      · exact Or.inr h
  cases v with
  | null => rfl
  | num n =>
    obtain ⟨c, cs, hd, hct⟩ := pyStrInt_head n
    have hdn : (serializeValue (SqlValue.num n)).data = c :: cs := hd
    have hcN : c ≠ 'N' := by
      rcases hct with h | h
      · simp [h]
      · exact (isDigit_not_special h).2.2.1
    have hcq : ¬ c = squote := by
      rcases hct with h | h
      · rw [h]; decide
      · exact (isDigit_not_special h).2.2.2.1
    have hall : ∀ x ∈ (pyStrInt n).data,
        (fun x => decide (x ≠ ',') && decide (x ≠ ')')) x = true := by
      intro x hx
      have hmem : x = '-' ∨ x.isDigit = true := by
        simp only [pyStrInt] at hx
        by_cases hneg : n < 0
        · rw [if_pos hneg] at hx
          rw [String.data_append, show ("-" : String).data = ['-'] from rfl] at hx
          rcases List.mem_append.mp hx with h | h
          · exact Or.inl (by simpa using h)
          · right
            have hdig := natDigitsAux_all_digit (n.natAbs + 1) n.natAbs
            rw [List.all_eq_true] at hdig
            exact hdig x h
        · rw [if_neg hneg] at hx
          right
          have hdig := natDigitsAux_all_digit (n.natAbs + 1) n.natAbs
          rw [List.all_eq_true] at hdig
          exact hdig x hx
      rcases hmem with h | h
      · simp [h]
      · have h1 := (isDigit_not_special h).2.1
        have h2 := (isDigit_not_special h).1
        simp [h1, h2]
    have htake : ((serializeValue (SqlValue.num n)).data ++ rest).takeWhile
        (fun x => decide (x ≠ ',') && decide (x ≠ ')')) = (pyStrInt n).data := by
      show ((pyStrInt n).data ++ rest).takeWhile _ = _
      rw [takeWhile_append_all _ _ hall, hr0]
      rw [List.takeWhile_cons_of_neg (by rcases hc0 with h | h <;> simp [h]), List.append_nil]
    have hdrop : ((serializeValue (SqlValue.num n)).data ++ rest).dropWhile
        (fun x => decide (x ≠ ',') && decide (x ≠ ')')) = rest := by
      show ((pyStrInt n).data ++ rest).dropWhile _ = _
      rw [dropWhile_append_all _ _ hall, hr0]
      rw [List.dropWhile_cons_of_neg (by rcases hc0 with h | h <;> simp [h])]
    rw [parseValue]
    rw [if_neg (by
      rw [hdn, List.cons_append]
      exact take4_cons_ne_null _ hcN)]
    rw [if_neg (by
      rw [hdn, List.cons_append]
      simp only [List.head?, Option.some.injEq]
      exact hcq)]
    rw [htake, hdrop, parseIntL_pyStrInt]
  | str s =>
    have hdata : (serializeValue (SqlValue.str s)).data ++ rest =
        squote :: (escQuoteL s.data ++ squote :: rest) := by
      show (("'" ++ pyReplaceQuote s) ++ "'").data ++ rest = _
      rw [String.data_append, String.data_append, quote_data, pyReplaceQuote_data]
      simp
    have hhead : (c0 :: r0 : List Char).head? ≠ some squote := by
      rcases hc0 with h | h <;> simp [h, squote]
    have hscan := scanQuoted_esc s.data rest (by rw [hr0]; exact hhead)
    rw [hdata, parseValue]
    rw [if_neg (take4_cons_ne_null _ (by decide))]
    rw [if_pos (show (squote :: (escQuoteL s.data ++ squote :: rest)).head? = some squote
      from rfl)]
    simp only [List.tail_cons]
    rw [hscan]
    rfl

lemma obind_some {α β : Type} (a : α) (f : α → Option β) :
    ((some a : Option α) >>= f) = f a := rfl

lemma serializeValue_len (v : SqlValue) : 1 ≤ (serializeValue v).data.length := by
  obtain ⟨c, cs, hd, _, _⟩ := serializeValue_head v
  rw [hd]
  simp

lemma valsJoin_len (r : List SqlValue) :
    r.length ≤ (joinStrSep (",") (r.map serializeValue)).data.length + 1 := by
  induction r with
  | nil => simp
  | cons v r' ih =>
    cases r' with
    | nil =>
      have := serializeValue_len v
      show 1 ≤ (serializeValue v).data.length + 1
      omega
    | cons v2 vs =>
      have h1 := serializeValue_len v
      show (v :: v2 :: vs).length ≤
        (((serializeValue v ++ ",") ++
          joinStrSep (",") ((v2 :: vs).map serializeValue)).data).length + 1
      rw [String.data_append, String.data_append]
      simp only [List.length_append, List.length_cons,
        show (("," : String)).data.length = 1 from rfl]
      simp only [List.length_cons] at ih
      omega

lemma parseVals_round : ∀ (r : List SqlValue) (fuel : Nat) (rest : List Char),
    r.length < fuel → (∀ v ∈ r, wfValB v = true) →
    parseVals fuel ((joinStrSep (",") (r.map serializeValue)).data ++ ')' :: rest) =
      some (r, rest) := by
  intro r
  induction r with
  | nil =>
    intro fuel rest hf _
    obtain ⟨f, rfl⟩ : ∃ f, fuel = f + 1 := ⟨fuel - 1, by omega⟩
    show parseVals (f + 1) ((joinStrSep (",") ([] : List String)).data ++ ')' :: rest) =
      some ([], rest)
    rw [show (joinStrSep (",") ([] : List String)).data = [] from rfl, List.nil_append]
    rfl
  | cons v r' ih =>
    intro fuel rest hf hwf
    obtain ⟨f, rfl⟩ : ∃ f, fuel = f + 1 := ⟨fuel - 1, by omega⟩
    have hv := hwf v (by simp)
    obtain ⟨c, cs, hd, hcp, hcc⟩ := serializeValue_head v
    cases r' with
    | nil =>
      have hshape : (joinStrSep (",") ([v].map serializeValue)).data ++ ')' :: rest =
          (serializeValue v).data ++ ')' :: rest := rfl
      show parseVals (f + 1) ((joinStrSep (",") ([v].map serializeValue)).data ++ ')' :: rest) =
        some ([v], rest)
      rw [hshape, parseVals]
      rw [if_neg (by
        rw [hd, List.cons_append]
        simp only [List.head?, Option.some.injEq]
        exact hcp)]
      rw [parseValue_ser v hv (')' :: rest) (Or.inr rfl)]
      rfl
    | cons v2 vs =>
      have hshape : (joinStrSep (",") ((v :: v2 :: vs).map serializeValue)).data ++ ')' :: rest =
          (serializeValue v).data ++ ',' ::
            ((joinStrSep (",") ((v2 :: vs).map serializeValue)).data ++ ')' :: rest) := by
        show (((serializeValue v ++ ",") ++
          joinStrSep (",") ((v2 :: vs).map serializeValue)).data) ++ ')' :: rest = _
        rw [String.data_append, String.data_append]
        simp [show ("," : String).data = [','] from rfl]
      rw [hshape, parseVals]
      rw [if_neg (by
        rw [hd, List.cons_append]
        simp only [List.head?, Option.some.injEq]
        exact hcp)]
      rw [parseValue_ser v hv
        (',' :: ((joinStrSep (",") ((v2 :: vs).map serializeValue)).data ++ ')' :: rest))
        (Or.inl rfl)]
      have hrec := ih f rest
        (by simp only [List.length_cons] at hf ⊢; omega)
        (fun u hu => hwf u (by simp [hu]))
      simp only [List.map_cons] at hrec
      simp [hrec]

lemma rowText_data (r : List SqlValue) :
    (rowText r).data = '(' :: ((joinStrSep (",") (r.map serializeValue)).data ++ [')']) := by
  show (("(" ++ joinStrSep (",") (r.map serializeValue)) ++ ")").data = _
  rw [String.data_append, String.data_append]
  simp [show ("(" : String).data = ['('] from rfl, show (")" : String).data = [')'] from rfl]

lemma parseRows_round : ∀ (rows : List (List SqlValue)) (fuel : Nat),
    rows ≠ [] → rows.length ≤ fuel → (∀ r ∈ rows, ∀ v ∈ r, wfValB v = true) →
    parseRows fuel ((rowsBodyText rows).data) = some (rows, []) := by
  intro rows
  induction rows with
  | nil => intro fuel h; exact absurd rfl h
  | cons r rows' ih =>
    intro fuel _ hf hwf
    obtain ⟨f, rfl⟩ : ∃ f, fuel = f + 1 :=
      ⟨fuel - 1, by
        have h2 := hf
        simp only [List.length_cons] at h2
        omega⟩
    have hr := hwf r (by simp)
    cases rows' with
    | nil =>
      show parseRows (f + 1) ((rowText r).data) = some ([r], [])
      rw [rowText_data, parseRows, expectChar_cons, obind_some]
      have hvals := parseVals_round r
        (fuelFor ((joinStrSep (",") (r.map serializeValue)).data ++ [')'])) ([] : List Char)
        (by
          show r.length < ((joinStrSep (",") (r.map serializeValue)).data ++ [')']).length + 1
          have hjl := valsJoin_len r
          have hlen : ((joinStrSep (",") (r.map serializeValue)).data ++ [')']).length =
              (joinStrSep (",") (r.map serializeValue)).data.length + 1 := by
            simp
          omega)
        (fun v hv => hr v hv)
      rw [hvals, obind_some]
      rfl
    | cons r2 rows2 =>
      have hshape : (rowsBodyText (r :: r2 :: rows2)).data =
          '(' :: ((joinStrSep (",") (r.map serializeValue)).data ++ ')' :: ',' :: '\n' ::
            (rowsBodyText (r2 :: rows2)).data) := by
        show ((rowText r ++ ",\n") ++ rowsBodyText (r2 :: rows2)).data = _
        rw [String.data_append, String.data_append, rowText_data]
        simp [show (",\n" : String).data = [',', '\n'] from rfl]
      rw [hshape, parseRows, expectChar_cons, obind_some]
      have hvals := parseVals_round r
        (fuelFor ((joinStrSep (",") (r.map serializeValue)).data ++ ')' :: ',' :: '\n' ::
          (rowsBodyText (r2 :: rows2)).data))
        (',' :: '\n' :: (rowsBodyText (r2 :: rows2)).data)
        (by
          show r.length < ((joinStrSep (",") (r.map serializeValue)).data ++ ')' :: ',' :: '\n' ::
            (rowsBodyText (r2 :: rows2)).data).length + 1
          have hjl := valsJoin_len r
          have hlen : ((joinStrSep (",") (r.map serializeValue)).data ++ ')' :: ',' :: '\n' ::
              (rowsBodyText (r2 :: rows2)).data).length =
              (joinStrSep (",") (r.map serializeValue)).data.length +
                ((rowsBodyText (r2 :: rows2)).data.length + 3) := by
            rw [List.length_append]
            rfl
          omega)
        (fun v hv => hr v hv)
      rw [hvals, obind_some]
      have hrec := ih f (by simp) (by simp only [List.length_cons] at hf ⊢; omega)
        (fun u hu v hv => hwf u (by simp [hu]) v hv)
      simp [expectChar, hrec]

lemma backtick_str_data : ("`" : String).data = [backtick] := rfl

lemma colPiece_data (c : String) :
    (("`" ++ c ++ "` text") : String).data =
      backtick :: (c.data ++ backtick :: (" text" : String).data) := by
  show ((("`" ++ c) ++ "` text") : String).data = _
  rw [String.data_append, String.data_append, backtick_str_data,
    show ("` text" : String).data = backtick :: (" text" : String).data from rfl]
  simp

lemma colsJoin_len (cols : List String) :
    cols.length ≤
      (joinStrSep (",") (cols.map (fun c => "`" ++ c ++ "` text"))).data.length := by
  induction cols with
  | nil => simp [joinStrSep]
  | cons c cols' ih =>
    cases cols' with
    | nil =>
      show 1 ≤ (("`" ++ c ++ "` text") : String).data.length
      rw [colPiece_data]
      simp
    | cons c2 cs =>
      show (c :: c2 :: cs).length ≤
        (((("`" ++ c ++ "` text") ++ ",") ++
          joinStrSep (",") ((c2 :: cs).map (fun x => "`" ++ x ++ "` text"))).data).length
      rw [String.data_append, String.data_append]
      simp only [List.length_append, List.length_cons] at ih ⊢
      rw [colPiece_data]
      simp only [List.length_cons, List.length_append,
        show ("," : String).data.length = 1 from rfl]
      omega

lemma parseCols_round : ∀ (cols : List String) (fuel : Nat) (rest : List Char),
    cols ≠ [] → cols.length ≤ fuel → (∀ c ∈ cols, wfNameB c = true) →
    parseCols fuel
      ((joinStrSep (",") (cols.map (fun c => "`" ++ c ++ "` text"))).data ++ ')' :: rest) =
      some (cols, rest) := by
  intro cols
  induction cols with
  | nil => intro fuel rest h; exact absurd rfl h
  | cons c cols' ih =>
    intro fuel rest _ hf hwf
    obtain ⟨f, rfl⟩ : ∃ f, fuel = f + 1 :=
      ⟨fuel - 1, by
        have h2 := hf
        simp only [List.length_cons] at h2
        omega⟩
    have hc := hwf c (by simp)
    have hnb := wfNameB_no_backtick hc
    cases cols' with
    | nil =>
      have hshape : (joinStrSep (",") ([c].map (fun x => "`" ++ x ++ "` text"))).data ++
          ')' :: rest =
          backtick :: (c.data ++ backtick :: ((" text" : String).data ++ ')' :: rest)) := by
        show (("`" ++ c ++ "` text") : String).data ++ ')' :: rest = _
        rw [colPiece_data]
        simp
      rw [hshape]
      simp [parseCols, expectChar, expectPfx, parseName_round c hnb]
    | cons c2 cs =>
      have hshape : (joinStrSep (",") ((c :: c2 :: cs).map (fun x => "`" ++ x ++ "` text"))).data ++
          ')' :: rest =
          backtick :: (c.data ++ backtick :: ((" text" : String).data ++ ',' ::
            ((joinStrSep (",") ((c2 :: cs).map (fun x => "`" ++ x ++ "` text"))).data ++
              ')' :: rest))) := by
        show (((("`" ++ c ++ "` text") ++ ",") ++
          joinStrSep (",") ((c2 :: cs).map (fun x => "`" ++ x ++ "` text"))).data) ++
          ')' :: rest = _
        rw [String.data_append, String.data_append, colPiece_data]
        simp [show ("," : String).data = [','] from rfl]
      rw [hshape]
      have hrec := ih f rest (by simp)
        (by simp only [List.length_cons] at hf ⊢; omega)
        (fun u hu => hwf u (by simp [hu]))
      simp only [List.map_cons] at hrec
      simp [parseCols, expectChar, expectPfx, parseName_round c hnb, hrec]

lemma insColsJoin_len (cols : List String) :
    cols.length ≤ (joinStrSep ("`,`") cols).data.length + 1 := by
  induction cols with
  | nil => simp [joinStrSep]
  | cons c cols' ih =>
    cases cols' with
    | nil => simp [joinStrSep]
    | cons c2 cs =>
      show (c :: c2 :: cs).length ≤
        (((c ++ "`,`") ++ joinStrSep ("`,`") (c2 :: cs)).data).length + 1
      rw [String.data_append, String.data_append]
      simp only [List.length_cons] at ih
      simp only [List.length_append, List.length_cons,
        show ("`,`" : String).data.length = 3 from rfl]
      omega

lemma parseInsCols_round : ∀ (cols : List String) (fuel : Nat) (rest : List Char),
    cols ≠ [] → cols.length ≤ fuel → (∀ c ∈ cols, wfNameB c = true) →
    parseInsCols fuel ((joinStrSep ("`,`") cols).data ++ backtick :: ')' :: rest) =
      some (cols, rest) := by
  intro cols
  induction cols with
  | nil => intro fuel rest h; exact absurd rfl h
  | cons c cols' ih =>
    intro fuel rest _ hf hwf
    obtain ⟨f, rfl⟩ : ∃ f, fuel = f + 1 :=
      ⟨fuel - 1, by
        have h2 := hf
        simp only [List.length_cons] at h2
        omega⟩
    have hc := hwf c (by simp)
    have hnb := wfNameB_no_backtick hc
    cases cols' with
    | nil =>
      show parseInsCols (f + 1) (c.data ++ backtick :: ')' :: rest) = some ([c], rest)
      simp [parseInsCols, parseName_round c hnb]
    | cons c2 cs =>
      have hshape : (joinStrSep ("`,`") (c :: c2 :: cs)).data ++ backtick :: ')' :: rest =
          c.data ++ backtick :: ',' :: backtick ::
            ((joinStrSep ("`,`") (c2 :: cs)).data ++ backtick :: ')' :: rest) := by
        show (((c ++ "`,`") ++ joinStrSep ("`,`") (c2 :: cs)).data) ++ backtick :: ')' :: rest = _
        rw [String.data_append, String.data_append,
          show ("`,`" : String).data = [backtick, ',', backtick] from rfl]
        simp
      rw [hshape]
      have hrec := ih f rest (by simp)
        (by simp only [List.length_cons] at hf ⊢; omega)
        (fun u hu => hwf u (by simp [hu]))
      simp [parseInsCols, expectChar, parseName_round c hnb, hrec]

/-! ## Statement-level parse lemmas -/

lemma parseCmd_nil : parseCmd [] = none := rfl

lemma parseCmd_drop (n : String) (h : wfNameB n = true) :
    parseCmd (("DROP TABLE IF EXISTS `").data ++ n.data ++ [backtick]) =
      some (SqlCmd.dropT n) := by
  rw [show ("DROP TABLE IF EXISTS `").data ++ n.data ++ [backtick] =
      'D' :: (("ROP TABLE IF EXISTS `").data ++ (n.data ++ backtick :: [])) from by
    rw [show ("DROP TABLE IF EXISTS `").data =
      'D' :: ("ROP TABLE IF EXISTS `").data from rfl]
    simp]
  simp [parseCmd, parseDropTail, expectPfx, parseName_round n (wfNameB_no_backtick h)]

lemma parseCmd_create (n : String) (cols : List String) (hn : wfNameB n = true)
    (hne : cols ≠ []) (hwf : ∀ c ∈ cols, wfNameB c = true) :
    parseCmd ((mkCreateStmt n cols).data) = some (SqlCmd.createT n cols) := by
  have hshape : (mkCreateStmt n cols).data =
      'C' :: (("REATE TABLE `").data ++ (n.data ++ backtick :: ' ' :: '(' ::
        ((joinStrSep (",") (cols.map (fun c => "`" ++ c ++ "` text"))).data ++ ')' :: []))) := by
    show (((("CREATE TABLE `" ++ n) ++ "` (") ++
      joinStrSep (",") (cols.map (fun c => "`" ++ c ++ "` text"))) ++ ")").data = _
    rw [String.data_append, String.data_append, String.data_append, String.data_append]
    rw [show ("CREATE TABLE `").data = 'C' :: ("REATE TABLE `").data from rfl,
      show ("` (" : String).data = backtick :: ' ' :: '(' :: [] from rfl,
      show (")" : String).data = [')'] from rfl]
    simp
  rw [hshape]
  have hpc := parseCols_round cols
    (fuelFor ((joinStrSep (",") (cols.map (fun c => "`" ++ c ++ "` text"))).data ++ ')' :: []))
    ([] : List Char) hne
    (by
      show cols.length ≤
        ((joinStrSep (",") (cols.map (fun c => "`" ++ c ++ "` text"))).data ++ ')' :: []).length + 1
      have hj := colsJoin_len cols
      have hlen : ((joinStrSep (",") (cols.map (fun c => "`" ++ c ++ "` text"))).data ++
          ')' :: []).length =
          (joinStrSep (",") (cols.map (fun c => "`" ++ c ++ "` text"))).data.length + 1 := by
        simp
      omega)
    hwf
  simp [parseCmd, parseCreateTail, expectPfx, parseName_round n (wfNameB_no_backtick hn), hpc]

lemma rowsBody_len (rows : List (List SqlValue)) :
    rows.length ≤ (rowsBodyText rows).data.length := by
  induction rows with
  | nil => exact Nat.zero_le _
  | cons r rows' ih =>
    cases rows' with
    | nil =>
      show 1 ≤ (rowText r).data.length
      rw [rowText_data]
      simp
    | cons r2 rs =>
      show (r :: r2 :: rs).length ≤ (((rowText r ++ ",\n") ++ rowsBodyText (r2 :: rs)).data).length
      rw [String.data_append, String.data_append]
      simp only [List.length_cons] at ih
      have h1 : 1 ≤ (rowText r).data.length := by rw [rowText_data]; simp
      simp only [List.length_cons, List.length_append,
        show (",\n" : String).data.length = 2 from rfl]
      omega

lemma rowsText_eq_body : ∀ rows : List (List SqlValue), rows ≠ [] →
    rowsText rows = rowsBodyText rows ++ ";\n" := by
  intro rows
  induction rows with
  | nil => intro h; exact absurd rfl h
  | cons r rows' ih =>
    intro _
    cases rows' with
    | nil => rfl
    | cons r2 rs =>
      show (rowText r ++ ",\n") ++ rowsText (r2 :: rs) =
        ((rowText r ++ ",\n") ++ rowsBodyText (r2 :: rs)) ++ ";\n"
      rw [ih (by simp)]
      simp [String.append_assoc]

lemma parseCmd_insert (t : Table) (hn : wfNameB t.name = true) (hc : t.cols ≠ [])
    (hcw : ∀ c ∈ t.cols, wfNameB c = true) (hr : t.rows ≠ [])
    (hrw : ∀ r ∈ t.rows, ∀ v ∈ r, wfValB v = true) :
    parseCmd ((insHeader t).data ++ (rowsBodyText t.rows).data) =
      some (SqlCmd.insertT t.name t.cols t.rows) := by
  have hshape : (insHeader t).data ++ (rowsBodyText t.rows).data =
      'I' :: (("NSERT INTO `").data ++ (t.name.data ++ backtick :: ' ' :: '(' :: backtick ::
        ((joinStrSep ("`,`") t.cols).data ++ backtick :: ')' ::
          (' ' :: 'V' :: 'A' :: 'L' :: 'U' :: 'E' :: 'S' :: '\n' ::
            (rowsBodyText t.rows).data)))) := by
    show (((("INSERT INTO `" ++ t.name) ++ "` (`") ++ joinStrSep ("`,`") t.cols) ++
      "`) VALUES\n").data ++ (rowsBodyText t.rows).data = _
    rw [String.data_append, String.data_append, String.data_append, String.data_append]
    rw [show ("INSERT INTO `").data = 'I' :: ("NSERT INTO `").data from rfl,
      show ("` (`" : String).data = backtick :: ' ' :: '(' :: backtick :: [] from rfl,
      show ("`) VALUES\n" : String).data =
        backtick :: ')' :: ' ' :: 'V' :: 'A' :: 'L' :: 'U' :: 'E' :: 'S' :: '\n' :: [] from rfl]
    simp
  rw [hshape]
  have hic := parseInsCols_round t.cols
    (fuelFor ((joinStrSep ("`,`") t.cols).data ++ backtick :: ')' ::
      (' ' :: 'V' :: 'A' :: 'L' :: 'U' :: 'E' :: 'S' :: '\n' :: (rowsBodyText t.rows).data)))
    (' ' :: 'V' :: 'A' :: 'L' :: 'U' :: 'E' :: 'S' :: '\n' :: (rowsBodyText t.rows).data)
    hc
    (by
      show t.cols.length ≤ ((joinStrSep ("`,`") t.cols).data ++ backtick :: ')' ::
        (' ' :: 'V' :: 'A' :: 'L' :: 'U' :: 'E' :: 'S' :: '\n' ::
          (rowsBodyText t.rows).data)).length + 1
      have hj := insColsJoin_len t.cols
      have hlen : ((joinStrSep ("`,`") t.cols).data ++ backtick :: ')' ::
          (' ' :: 'V' :: 'A' :: 'L' :: 'U' :: 'E' :: 'S' :: '\n' ::
            (rowsBodyText t.rows).data)).length =
          (joinStrSep ("`,`") t.cols).data.length +
            ((rowsBodyText t.rows).data.length + 10) := by
        rw [List.length_append]
        rfl
      omega)
    hcw
  have hpr := parseRows_round t.rows (fuelFor ((rowsBodyText t.rows).data)) hr
    (by
      show t.rows.length ≤ (rowsBodyText t.rows).data.length + 1
      have := rowsBody_len t.rows
      omega)
    hrw
  simp [parseCmd, parseInsertTail, expectPfx, expectChar,
    parseName_round t.name (wfNameB_no_backtick hn), hic, hpr]

/-! ## The chunk decomposition of the exported text -/

lemma sectionText_data_empty (t : Table) (h : t.rows = []) :
    (sectionText t).data =
      chunkA t.name ++ ';' ::
        (('\n' :: (mkCreateStmt t.name t.cols).data) ++ ';' :: junkTail t.name) := by
  have hw : tableWrites t =
      [("\n-- Table structure for table `" ++ t.name ++ "`\n"),
       ("DROP TABLE IF EXISTS `" ++ t.name ++ "`;\n"),
       (mkCreateStmt t.name t.cols ++ ";\n\n"),
       ("-- Dumping data for table `" ++ t.name ++ "`\n")] := by
    rw [tableWrites, h]
    simp
  rw [sectionText, hw]
  show ((("\n-- Table structure for table `" ++ t.name) ++ "`\n") ++
    (((("DROP TABLE IF EXISTS `" ++ t.name) ++ "`;\n")) ++
      ((mkCreateStmt t.name t.cols ++ ";\n\n") ++
        ((("-- Dumping data for table `" ++ t.name) ++ "`\n") ++ "")))).data = _
  simp only [String.data_append]
  simp [chunkA, structCmt, dropStmtL, junkTail, dataCmt]

lemma sectionText_data_rows (t : Table) (h : t.rows ≠ []) :
    (sectionText t).data =
      chunkA t.name ++ ';' ::
        (('\n' :: (mkCreateStmt t.name t.cols).data) ++ ';' ::
          (chunkD t ++ ';' :: ['\n'])) := by
  have hw : tableWrites t =
      [("\n-- Table structure for table `" ++ t.name ++ "`\n"),
       ("DROP TABLE IF EXISTS `" ++ t.name ++ "`;\n"),
       (mkCreateStmt t.name t.cols ++ ";\n\n"),
       ("-- Dumping data for table `" ++ t.name ++ "`\n"),
       insHeader t, rowsText t.rows] := by
    rw [tableWrites, if_neg h]
  rw [sectionText, hw]
  show ((("\n-- Table structure for table `" ++ t.name) ++ "`\n") ++
    (((("DROP TABLE IF EXISTS `" ++ t.name) ++ "`;\n")) ++
      ((mkCreateStmt t.name t.cols ++ ";\n\n") ++
        ((("-- Dumping data for table `" ++ t.name) ++ "`\n") ++
          (insHeader t ++ (rowsText t.rows ++ "")))))).data = _
  rw [rowsText_eq_body t.rows h]
  simp only [String.data_append]
  simp [chunkA, structCmt, dropStmtL, chunkD, dataCmt, insStmtL]

lemma joinAll_append : ∀ (a b : List String), joinAll (a ++ b) = joinAll a ++ joinAll b := by
  intro a
  induction a with
  | nil =>
    intro b
    show joinAll b = "" ++ joinAll b
    rfl
  | cons x a ih =>
    intro b
    show x ++ joinAll (a ++ b) = (x ++ joinAll a) ++ joinAll b
    rw [ih, String.append_assoc]

lemma sections_flatten : ∀ ts : List Table,
    joinAll ((ts.map tableWrites).flatten) = sectionsText ts := by
  intro ts
  induction ts with
  | nil => rfl
  | cons t ts ih =>
    show joinAll (tableWrites t ++ (ts.map tableWrites).flatten) = _
    rw [joinAll_append, ih]
    rfl

lemma exportText_data (now dbLabel : String) (tables : List Table) :
    (exportText now dbLabel tables).data = headerL now dbLabel ++ (sectionsText tables).data := by
  show ((("-- Database dump generated on " ++ now) ++ "\n") ++
    (((("-- Database: " ++ dbLabel) ++ "\n\n")) ++
      joinAll ((tables.map tableWrites).flatten))).data = _
  rw [sections_flatten]
  simp only [String.data_append]
  simp [headerL]

lemma sectionsText_cons_data (t : Table) (ts : List Table) :
    (sectionsText (t :: ts)).data = (sectionText t).data ++ (sectionsText ts).data := by
  show (sectionText t ++ sectionsText ts).data = _
  rw [String.data_append]

/-! ## Junk-line and character facts about the pieces -/

lemma noChar_of_all {c : Char} {l : List Char}
    (h : l.all (fun x => !(x == c)) = true) : NoChar c l := by
  rw [List.all_eq_true] at h
  intro x hx
  have := h x hx
  simpa using this

lemma structCmt_no_nl (n : String) (h : wfNameB n = true) : NoChar '\n' (structCmt n) :=
  noChar_append (noChar_append (noChar_of_all (by decide)) (wfNameB_no_nl h))
    (noChar_of_all (by decide))

lemma dataCmt_no_nl (n : String) (h : wfNameB n = true) : NoChar '\n' (dataCmt n) :=
  noChar_append (noChar_append (noChar_of_all (by decide)) (wfNameB_no_nl h))
    (noChar_of_all (by decide))

lemma structCmt_junk (n : String) : isJunkLine (structCmt n) = true := by
  rw [show structCmt n = '-' :: '-' ::
    (((" Table structure for table `").data ++ n.data) ++ ("`").data) from rfl]
  exact isJunkLine_comment _

lemma dataCmt_junk (n : String) : isJunkLine (dataCmt n) = true := by
  rw [show dataCmt n = '-' :: '-' ::
    (((" Dumping data for table `").data ++ n.data) ++ ("`").data) from rfl]
  exact isJunkLine_comment _

lemma firstLine_nonjunk {c : Char} (hsp : isPySpace c = false) (hdash : c ≠ '-')
    (r : List Char) : isJunkLine ((c :: r).takeWhile (fun x => !(x == '\n'))) = false := by
  have hnl : c ≠ '\n' := by
    intro he
    rw [he] at hsp
    exact absurd hsp (by decide)
  rw [List.takeWhile_cons_of_pos (by simp [hnl])]
  exact isJunkLine_false c _ hsp hdash

lemma mkCreateStmt_head (n : String) (cols : List String) :
    ∃ r, (mkCreateStmt n cols).data = 'C' :: r := ⟨_, rfl⟩

lemma insHeader_head (t : Table) : ∃ r, (insHeader t).data = 'I' :: r := ⟨_, rfl⟩

lemma lines_junk_structPre (pre : List Char) (n : String)
    (hpre : ∀ ln ∈ splitOnChar '\n' pre, isJunkLine ln = true)
    (hn : wfNameB n = true) :
    ∀ ln ∈ splitOnChar '\n' (pre ++ '\n' :: structCmt n), isJunkLine ln = true := by
  intro ln hln
  rw [splitOnChar_append_sep] at hln
  rcases List.mem_append.mp hln with h | h
  · exact hpre ln h
  · rw [splitOnChar_no_sep '\n' (structCmt n) (structCmt_no_nl n hn)] at h
    rw [List.mem_singleton.mp h]
    exact structCmt_junk n

lemma lines_junk_dataPre (n : String) (hn : wfNameB n = true) :
    ∀ ln ∈ splitOnChar '\n' ('\n' :: '\n' :: dataCmt n), isJunkLine ln = true := by
  intro ln hln
  rw [show ('\n' :: '\n' :: dataCmt n : List Char) = [] ++ '\n' :: ([] ++ '\n' :: dataCmt n)
    from rfl, splitOnChar_append_sep, splitOnChar_append_sep] at hln
  rw [splitOnChar_no_sep '\n' (dataCmt n) (dataCmt_no_nl n hn)] at hln
  simp only [show splitOnChar '\n' ([] : List Char) = [[]] from rfl] at hln
  rcases List.mem_append.mp hln with h | h
  · rw [List.mem_singleton.mp h]; exact isJunkLine_nil
  · rcases List.mem_append.mp h with h | h
    · rw [List.mem_singleton.mp h]; exact isJunkLine_nil
    · rw [List.mem_singleton.mp h]; exact dataCmt_junk n

lemma lines_junk_nil :
    ∀ ln ∈ splitOnChar '\n' ([] : List Char), isJunkLine ln = true := by
  intro ln hln
  simp only [show splitOnChar '\n' ([] : List Char) = [[]] from rfl,
    List.mem_singleton] at hln
  rw [hln]
  exact isJunkLine_nil

/-! ## List helpers for the engine semantics -/

lemma filter_name_eq_self (st : List Table) (n : String) (h : ∀ u ∈ st, u.name ≠ n) :
    st.filter (fun u => u.name ≠ n) = st := by
  rw [List.filter_eq_self]
  intro u hu
  simp [h u hu]

lemma any_name_false (st : List Table) (n : String) (h : ∀ u ∈ st, u.name ≠ n) :
    st.any (fun u => u.name = n) = false := by
  rw [List.any_eq_false]
  intro u hu
  simp [h u hu]

lemma find?_append_none {p : Table → Bool} (l1 l2 : List Table)
    (h : ∀ a ∈ l1, p a = false) : (l1 ++ l2).find? p = l2.find? p := by
  induction l1 with
  | nil => simp
  | cons a l1 ih =>
    have ha := h a (by simp)
    simp only [List.cons_append, List.find?_cons, ha]
    exact ih (fun x hx => h x (by simp [hx]))

lemma map_id_of {α : Type} (l : List α) (f : α → α) (h : ∀ x ∈ l, f x = x) :
    l.map f = l := by
  induction l with
  | nil => rfl
  | cons a l ih =>
    rw [List.map_cons, h a (by simp), ih (fun x hx => h x (by simp [hx]))]

lemma applyCmd_insert_append (st : List Table) (n : String) (cols : List String)
    (rows : List (List SqlValue)) (hst : ∀ u ∈ st, u.name ≠ n) :
    applyCmd (st ++ [⟨n, cols, []⟩]) (SqlCmd.insertT n cols rows) =
      Except.ok (st ++ [⟨n, cols, rows⟩]) := by
  show (match List.find? (fun u => u.name = n) (st ++ [(⟨n, cols, []⟩ : Table)]) with
    | none => (Except.error "no such table" : Except String (List Table))
    | some u =>
      if u.cols = cols then
        Except.ok ((st ++ [(⟨n, cols, []⟩ : Table)]).map
          (fun u => if u.name = n then (⟨u.name, u.cols, u.rows ++ rows⟩ : Table) else u))
      else Except.error "unknown column") = Except.ok (st ++ [(⟨n, cols, rows⟩ : Table)])
  rw [find?_append_none st _ (by
    intro a ha
    simp [hst a ha])]
  rw [show (List.find? (fun u => u.name = n) [(⟨n, cols, []⟩ : Table)]) =
    some ⟨n, cols, []⟩ from by simp]
  show (if cols = cols then
    Except.ok ((st ++ [(⟨n, cols, []⟩ : Table)]).map
      (fun u => if u.name = n then (⟨u.name, u.cols, u.rows ++ rows⟩ : Table) else u))
    else Except.error "unknown column") = _
  rw [if_pos rfl]
  rw [List.map_append, map_id_of st _ (by
    intro u hu
    simp [hst u hu])]
  simp

/-! ## Executing the chunks -/

lemma execStmt_junkChunk (st : List Table) (l : List Char)
    (hj : ∀ ln ∈ splitOnChar '\n' l, isJunkLine ln = true) :
    execStmt st (String.mk l) = Except.error "statement failed" := by
  unfold execStmt
  rw [show (String.mk l).data = l from rfl, skipJunk_all l hj]
  rfl

lemma execStmt_chunkA (st : List Table) (pre : List Char) (t : Table)
    (hpre : ∀ ln ∈ splitOnChar '\n' pre, isJunkLine ln = true)
    (hn : wfNameB t.name = true)
    (hst : ∀ u ∈ st, u.name ≠ t.name) :
    execStmt st (String.mk (pre ++ chunkA t.name)) = Except.ok st := by
  unfold execStmt
  rw [show (String.mk (pre ++ chunkA t.name)).data = pre ++ chunkA t.name from rfl]
  rw [show pre ++ chunkA t.name =
    (pre ++ '\n' :: structCmt t.name) ++ '\n' :: dropStmtL t.name from by
      simp [chunkA]]
  rw [skipJunk_append _ _ (lines_junk_structPre pre t.name hpre hn)
    (by
      rw [show dropStmtL t.name = 'D' ::
        ((("ROP TABLE IF EXISTS `").data ++ t.name.data) ++ ("`").data) from rfl]
      exact firstLine_nonjunk (by decide) (by decide) _)]
  rw [show dropStmtL t.name =
    ("DROP TABLE IF EXISTS `").data ++ t.name.data ++ [backtick] from rfl]
  rw [parseCmd_drop t.name hn]
  show applyCmd st (SqlCmd.dropT t.name) = Except.ok st
  rw [show applyCmd st (SqlCmd.dropT t.name) =
    Except.ok (st.filter (fun u => u.name ≠ t.name)) from rfl]
  rw [filter_name_eq_self st t.name hst]

lemma execStmt_chunkB (st : List Table) (t : Table)
    (hn : wfNameB t.name = true) (hne : t.cols ≠ [])
    (hcw : ∀ c ∈ t.cols, wfNameB c = true)
    (hst : ∀ u ∈ st, u.name ≠ t.name) :
    execStmt st (String.mk ('\n' :: (mkCreateStmt t.name t.cols).data)) =
      Except.ok (st ++ [⟨t.name, t.cols, []⟩]) := by
  unfold execStmt
  rw [show (String.mk ('\n' :: (mkCreateStmt t.name t.cols).data)).data =
    '\n' :: (mkCreateStmt t.name t.cols).data from rfl]
  rw [show ('\n' :: (mkCreateStmt t.name t.cols).data : List Char) =
    [] ++ '\n' :: (mkCreateStmt t.name t.cols).data from rfl]
  obtain ⟨rc, hrc⟩ := mkCreateStmt_head t.name t.cols
  rw [skipJunk_append _ _ lines_junk_nil
    (by
      rw [hrc]
      exact firstLine_nonjunk (by decide) (by decide) _)]
  rw [parseCmd_create t.name t.cols hn hne hcw]
  show applyCmd st (SqlCmd.createT t.name t.cols) = _
  rw [show applyCmd st (SqlCmd.createT t.name t.cols) =
    (if st.any (fun u => u.name = t.name) then Except.error "table already exists"
     else Except.ok (st ++ [⟨t.name, t.cols, []⟩])) from rfl]
  rw [any_name_false st t.name hst]
  rfl

lemma execStmt_chunkD (st : List Table) (t : Table)
    (hn : wfNameB t.name = true) (hne : t.cols ≠ [])
    (hcw : ∀ c ∈ t.cols, wfNameB c = true) (hr : t.rows ≠ [])
    (hrw : ∀ r ∈ t.rows, ∀ v ∈ r, wfValB v = true)
    (hst : ∀ u ∈ st, u.name ≠ t.name) :
    execStmt (st ++ [⟨t.name, t.cols, []⟩]) (String.mk (chunkD t)) =
      Except.ok (st ++ [⟨t.name, t.cols, t.rows⟩]) := by
  unfold execStmt
  rw [show (String.mk (chunkD t)).data = chunkD t from rfl]
  rw [show chunkD t = ('\n' :: '\n' :: dataCmt t.name) ++ '\n' :: insStmtL t from by
    simp [chunkD]]
  obtain ⟨ri, hri⟩ := insHeader_head t
  rw [skipJunk_append _ _ (lines_junk_dataPre t.name hn)
    (by
      rw [show insStmtL t = (insHeader t).data ++ (rowsBodyText t.rows).data from rfl,
        hri, List.cons_append]
      exact firstLine_nonjunk (by decide) (by decide) _)]
  rw [show insStmtL t = (insHeader t).data ++ (rowsBodyText t.rows).data from rfl]
  rw [parseCmd_insert t hn hne hcw hr hrw]
  show applyCmd (st ++ [⟨t.name, t.cols, []⟩]) (SqlCmd.insertT t.name t.cols t.rows) = _
  rw [applyCmd_insert_append st t.name t.cols t.rows hst]

/-! ## No-semicolon facts about the generated text -/

lemma noChar_joinStrSep {c : Char} (sep : String) (hs : NoChar c sep.data)
    (l : List String) (h : ∀ s ∈ l, NoChar c s.data) :
    NoChar c (joinStrSep sep l).data := by
  induction l with
  | nil => exact noChar_of_all rfl
  | cons s ss ih =>
    cases ss with
    | nil => exact h s (by simp)
    | cons s2 ss2 =>
      show NoChar c ((s ++ sep) ++ joinStrSep sep (s2 :: ss2)).data
      rw [String.data_append, String.data_append]
      exact noChar_append (noChar_append (h s (by simp)) hs)
        (ih (fun x hx => h x (by simp [hx])))

lemma structCmt_no_semi (n : String) (h : wfNameB n = true) : NoChar ';' (structCmt n) :=
  noChar_append (noChar_append (noChar_of_all (by decide)) (wfNameB_no_semi h))
    (noChar_of_all (by decide))

lemma dataCmt_no_semi (n : String) (h : wfNameB n = true) : NoChar ';' (dataCmt n) :=
  noChar_append (noChar_append (noChar_of_all (by decide)) (wfNameB_no_semi h))
    (noChar_of_all (by decide))

lemma dropStmtL_no_semi (n : String) (h : wfNameB n = true) : NoChar ';' (dropStmtL n) :=
  noChar_append (noChar_append (noChar_of_all (by decide)) (wfNameB_no_semi h))
    (noChar_of_all (by decide))

lemma chunkA_no_semi (n : String) (h : wfNameB n = true) : NoChar ';' (chunkA n) :=
  noChar_cons (by decide)
    (noChar_append (structCmt_no_semi n h) (noChar_cons (by decide) (dropStmtL_no_semi n h)))

lemma mkCreateStmt_no_semi (n : String) (cols : List String) (hn : wfNameB n = true)
    (hc : ∀ c ∈ cols, wfNameB c = true) : NoChar ';' (mkCreateStmt n cols).data := by
  show NoChar ';' (((("CREATE TABLE `" : String) ++ n) ++ "` (") ++
    joinStrSep (",") (cols.map (fun c => "`" ++ c ++ "` text")) ++ ")").data
  rw [String.data_append, String.data_append, String.data_append, String.data_append]
  refine noChar_append (noChar_append (noChar_append (noChar_append
    (noChar_of_all (by decide)) (wfNameB_no_semi hn)) (noChar_of_all (by decide))) ?_)
    (noChar_of_all (by decide))
  refine noChar_joinStrSep _ (noChar_of_all (by decide)) _ ?_
  intro s hs
  obtain ⟨c, hc0, rfl⟩ := List.mem_map.mp hs
  show NoChar ';' ((("`" : String) ++ c) ++ "` text").data
  rw [String.data_append, String.data_append]
  exact noChar_append (noChar_append (noChar_of_all (by decide))
    (wfNameB_no_semi (hc c hc0))) (noChar_of_all (by decide))

lemma insHeader_no_semi (t : Table) (hn : wfNameB t.name = true)
    (hc : ∀ c ∈ t.cols, wfNameB c = true) : NoChar ';' (insHeader t).data := by
  show NoChar ';' (((("INSERT INTO `" : String) ++ t.name) ++ "` (`") ++
    joinStrSep ("`,`") t.cols ++ "`) VALUES\n").data
  rw [String.data_append, String.data_append, String.data_append, String.data_append]
  refine noChar_append (noChar_append (noChar_append (noChar_append
    (noChar_of_all (by decide)) (wfNameB_no_semi hn)) (noChar_of_all (by decide))) ?_)
    (noChar_of_all (by decide))
  exact noChar_joinStrSep _ (noChar_of_all (by decide)) _
    (fun s hs => wfNameB_no_semi (hc s hs))

lemma rowText_no_semi (r : List SqlValue) (h : ∀ v ∈ r, wfValB v = true) :
    NoChar ';' (rowText r).data := by
  show NoChar ';' ((("(" : String) ++ joinStrSep (",") (r.map serializeValue)) ++ ")").data
  rw [String.data_append, String.data_append]
  refine noChar_append (noChar_append (noChar_of_all (by decide)) ?_)
    (noChar_of_all (by decide))
  refine noChar_joinStrSep _ (noChar_of_all (by decide)) _ ?_
  intro s hs
  obtain ⟨v, hv, rfl⟩ := List.mem_map.mp hs
  exact serializeValue_no_semi v (h v hv)

lemma rowsBody_no_semi (rows : List (List SqlValue))
    (h : ∀ r ∈ rows, ∀ v ∈ r, wfValB v = true) :
    NoChar ';' (rowsBodyText rows).data := by
  induction rows with
  | nil => exact noChar_of_all (by decide)
  | cons r rs ih =>
    cases rs with
    | nil => exact rowText_no_semi r (h r (by simp))
    | cons r2 rs2 =>
      show NoChar ';' ((rowText r ++ ",\n") ++ rowsBodyText (r2 :: rs2)).data
      rw [String.data_append, String.data_append]
      exact noChar_append (noChar_append (rowText_no_semi r (h r (by simp)))
        (noChar_of_all (by decide))) (ih (fun x hx => h x (by simp [hx])))

lemma insStmtL_no_semi (t : Table) (hn : wfNameB t.name = true)
    (hc : ∀ c ∈ t.cols, wfNameB c = true)
    (hr : ∀ r ∈ t.rows, ∀ v ∈ r, wfValB v = true) : NoChar ';' (insStmtL t) :=
  noChar_append (insHeader_no_semi t hn hc) (rowsBody_no_semi t.rows hr)

lemma chunkD_no_semi (t : Table) (hn : wfNameB t.name = true)
    (hc : ∀ c ∈ t.cols, wfNameB c = true)
    (hr : ∀ r ∈ t.rows, ∀ v ∈ r, wfValB v = true) : NoChar ';' (chunkD t) :=
  noChar_cons (by decide) (noChar_cons (by decide)
    (noChar_append (dataCmt_no_semi t.name hn)
      (noChar_cons (by decide) (insStmtL_no_semi t hn hc hr))))

lemma junkTail_no_semi (n : String) (hn : wfNameB n = true) : NoChar ';' (junkTail n) :=
  noChar_cons (by decide) (noChar_cons (by decide)
    (noChar_append (dataCmt_no_semi n hn) (noChar_of_all (by decide))))

/-! ## Non-blank chunks -/

lemma pyStrip_ne_of_mem (l : List Char) (c : Char) (hc : c ∈ l)
    (hsp : isPySpace c = false) : pyStrip (String.mk l) ≠ "" := by
  intro habs
  rw [pyStrip_mk, mk_eq_empty] at habs
  have h1 : ((l.dropWhile isPySpace).reverse.dropWhile isPySpace) = [] :=
    List.reverse_eq_nil_iff.mp habs
  have h2 : ∀ x ∈ (l.dropWhile isPySpace).reverse, isPySpace x := by
    rw [← List.dropWhile_eq_nil_iff]
    exact h1
  rcases List.mem_append.mp
    (by rw [List.takeWhile_append_dropWhile]; exact hc :
      c ∈ l.takeWhile isPySpace ++ l.dropWhile isPySpace) with h | h
  · exact absurd (List.mem_takeWhile_imp h) (by simp [hsp])
  · exact absurd (h2 c (List.mem_reverse.mpr h)) (by simp [hsp])

lemma dash_mem_chunkA (n : String) : '-' ∈ chunkA n := by
  have h0 : '-' ∈ ("-- Table structure for table `").data := by decide
  exact List.mem_cons_of_mem _
    (List.mem_append_left _ (List.mem_append_left _ (List.mem_append_left _ h0)))

lemma dash_mem_chunkD (t : Table) : '-' ∈ chunkD t := by
  have h0 : '-' ∈ ("-- Dumping data for table `").data := by decide
  exact List.mem_cons_of_mem _ (List.mem_cons_of_mem _
    (List.mem_append_left _ (List.mem_append_left _ (List.mem_append_left _ h0))))

/-! ## Parsing the chunks (for the command-trace half) -/

lemma parse_chunkA (pre : List Char) (n : String)
    (hpre : ∀ ln ∈ splitOnChar '\n' pre, isJunkLine ln = true)
    (hn : wfNameB n = true) :
    parseCmd (skipJunk (pre ++ chunkA n)) = some (SqlCmd.dropT n) := by
  rw [show pre ++ chunkA n = (pre ++ '\n' :: structCmt n) ++ '\n' :: dropStmtL n from by
    simp [chunkA]]
  rw [skipJunk_append _ _ (lines_junk_structPre pre n hpre hn)
    (by
      rw [show dropStmtL n = 'D' ::
        ((("ROP TABLE IF EXISTS `").data ++ n.data) ++ ("`").data) from rfl]
      exact firstLine_nonjunk (by decide) (by decide) _)]
  rw [show dropStmtL n = ("DROP TABLE IF EXISTS `").data ++ n.data ++ [backtick] from rfl]
  exact parseCmd_drop n hn

lemma parse_chunkB (n : String) (cols : List String) (hn : wfNameB n = true)
    (hne : cols ≠ []) (hcw : ∀ c ∈ cols, wfNameB c = true) :
    parseCmd (skipJunk ('\n' :: (mkCreateStmt n cols).data)) =
      some (SqlCmd.createT n cols) := by
  rw [show ('\n' :: (mkCreateStmt n cols).data : List Char) =
    [] ++ '\n' :: (mkCreateStmt n cols).data from rfl]
  obtain ⟨rc, hrc⟩ := mkCreateStmt_head n cols
  rw [skipJunk_append _ _ lines_junk_nil
    (by
      rw [hrc]
      exact firstLine_nonjunk (by decide) (by decide) _)]
  exact parseCmd_create n cols hn hne hcw

lemma parse_chunkD (t : Table) (hn : wfNameB t.name = true) (hne : t.cols ≠ [])
    (hcw : ∀ c ∈ t.cols, wfNameB c = true) (hr : t.rows ≠ [])
    (hrw : ∀ r ∈ t.rows, ∀ v ∈ r, wfValB v = true) :
    parseCmd (skipJunk (chunkD t)) = some (SqlCmd.insertT t.name t.cols t.rows) := by
  rw [show chunkD t = ('\n' :: '\n' :: dataCmt t.name) ++ '\n' :: insStmtL t from by
    simp [chunkD]]
  obtain ⟨ri, hri⟩ := insHeader_head t
  rw [skipJunk_append _ _ (lines_junk_dataPre t.name hn)
    (by
      rw [show insStmtL t = (insHeader t).data ++ (rowsBodyText t.rows).data from rfl,
        hri, List.cons_append]
      exact firstLine_nonjunk (by decide) (by decide) _)]
  rw [show insStmtL t = (insHeader t).data ++ (rowsBodyText t.rows).data from rfl]
  exact parseCmd_insert t hn hne hcw hr hrw

/-! ## The replay fold, one chunk at a time -/

lemma execFold_cons_ok {σ : Type} (exec : σ → String → Except String σ)
    (st s2 : σ) (c : String) (cs : List String) (h : exec st c = Except.ok s2) :
    execFold exec st (c :: cs) = execFold exec s2 cs := by
  rw [show execFold exec st (c :: cs) =
    execFold exec (match exec st c with | .ok s => s | .error _ => st) cs from rfl, h]

lemma execFold_cons_err {σ : Type} (exec : σ → String → Except String σ)
    (st : σ) (e : String) (c : String) (cs : List String)
    (h : exec st c = Except.error e) :
    execFold exec st (c :: cs) = execFold exec st cs := by
  rw [show execFold exec st (c :: cs) =
    execFold exec (match exec st c with | .ok s => s | .error _ => st) cs from rfl, h]

lemma lines_junk_junkTail (n : String) (hn : wfNameB n = true) :
    ∀ ln ∈ splitOnChar '\n' (junkTail n), isJunkLine ln = true := by
  intro ln hln
  rw [show junkTail n = [] ++ '\n' :: ([] ++ '\n' :: (dataCmt n ++ '\n' :: [])) from rfl,
    splitOnChar_append_sep, splitOnChar_append_sep, splitOnChar_append_sep] at hln
  rw [splitOnChar_no_sep '\n' (dataCmt n) (dataCmt_no_nl n hn)] at hln
  simp only [show splitOnChar '\n' ([] : List Char) = [[]] from rfl,
    List.mem_append, List.mem_singleton] at hln
  rcases hln with h | h | h | h <;> rw [h]
  · exact isJunkLine_nil
  · exact isJunkLine_nil
  · exact dataCmt_junk n
  · exact isJunkLine_nil

lemma lines_junk_singleNl :
    ∀ ln ∈ splitOnChar '\n' (['\n'] : List Char), isJunkLine ln = true := by decide

lemma importedChunks_eq (l : List Char) :
    importedChunks l =
      ((splitOnChar ';' l).map String.mk).filter (fun c => pyStrip c ≠ "") := rfl

lemma headerL_no_semi (now dbLabel : String) (h1 : wfNameB now = true)
    (h2 : wfNameB dbLabel = true) : NoChar ';' (headerL now dbLabel) :=
  noChar_append
    (noChar_append (noChar_append (noChar_of_all (by decide)) (wfNameB_no_semi h1))
      (noChar_of_all (by decide)))
    (noChar_append (noChar_append (noChar_of_all (by decide)) (wfNameB_no_semi h2))
      (noChar_of_all (by decide)))

lemma lines_junk_headerL (now dbLabel : String) (h1 : wfNameB now = true)
    (h2 : wfNameB dbLabel = true) :
    ∀ ln ∈ splitOnChar '\n' (headerL now dbLabel), isJunkLine ln = true := by
  intro ln hln
  rw [show headerL now dbLabel =
    (("-- Database dump generated on ").data ++ now.data) ++ '\n' ::
      ((("-- Database: ").data ++ dbLabel.data) ++ '\n' :: ['\n']) from by
    simp [headerL]] at hln
  rw [splitOnChar_append_sep, splitOnChar_append_sep] at hln
  rw [splitOnChar_no_sep '\n' (("-- Database dump generated on ").data ++ now.data)
    (noChar_append (noChar_of_all (by decide)) (wfNameB_no_nl h1))] at hln
  rw [splitOnChar_no_sep '\n' (("-- Database: ").data ++ dbLabel.data)
    (noChar_append (noChar_of_all (by decide)) (wfNameB_no_nl h2))] at hln
  rw [show splitOnChar '\n' (['\n'] : List Char) = [[], []] from rfl] at hln
  simp only [List.mem_append, List.mem_singleton, List.mem_cons,
    List.not_mem_nil, or_false] at hln
  rcases hln with h | h | h | h <;> rw [h]
  · rw [show ("-- Database dump generated on ").data ++ now.data =
      '-' :: '-' :: ((" Database dump generated on ").data ++ now.data) from rfl]
    exact isJunkLine_comment _
  · rw [show ("-- Database: ").data ++ dbLabel.data =
      '-' :: '-' :: ((" Database: ").data ++ dbLabel.data) from rfl]
    exact isJunkLine_comment _
  · exact isJunkLine_nil
  · exact isJunkLine_nil

/-- The heart of the round-trip: replaying the sections of the exported
text (preceded by any junk prefix) appends exactly the exported tables to
the engine state, and the recognized command trace is the predicted one. -/
lemma import_sections : ∀ (ts : List Table) (st : List Table) (pre : List Char),
    (∀ ln ∈ splitOnChar '\n' pre, isJunkLine ln = true) →
    NoChar ';' pre →
    (∀ s ∈ ts, wfTableB s = true) →
    ((ts.map Table.name).Nodup) →
    (∀ u ∈ st, ∀ s ∈ ts, u.name ≠ s.name) →
    execFold execStmt st (importedChunks (pre ++ (sectionsText ts).data)) = st ++ ts ∧
      (importedChunks (pre ++ (sectionsText ts).data)).filterMap
        (fun c => parseCmd (skipJunk c.data)) = ts.flatMap tableCmds := by
  intro ts
  induction ts with
  | nil =>
    intro st pre hpre hsemi _ _ _
    rw [show (sectionsText []).data = [] from rfl, List.append_nil]
    rw [importedChunks_eq, splitOnChar_no_sep ';' pre hsemi, List.map_cons, List.map_nil]
    by_cases hb : pyStrip (String.mk pre) = ""
    · rw [List.filter_cons_of_neg (by simp [hb])]
      constructor
      · simp [execFold]
      · simp
    · rw [List.filter_cons_of_pos (by simp [hb])]
      constructor
      · rw [execFold_cons_err _ _ _ _ _ (execStmt_junkChunk st pre hpre)]
        simp [execFold]
      · rw [List.filterMap_cons_none (by
          rw [show (String.mk pre).data = pre from rfl, skipJunk_all pre hpre]
          exact parseCmd_nil)]
        simp
  | cons t ts' ih =>
    intro st pre hpre hsemi hwf hnd hfresh
    have hwt := hwf t (by simp)
    simp only [wfTableB, Bool.and_eq_true] at hwt
    obtain ⟨⟨⟨hn, hne'⟩, hcall⟩, hrall⟩ := hwt
    have hne : t.cols ≠ [] := by
      intro h0
      rw [h0] at hne'
      exact absurd hne' (by decide)
    have hcw : ∀ c ∈ t.cols, wfNameB c = true := by
      rw [List.all_eq_true] at hcall
      exact hcall
    have hrw : ∀ r ∈ t.rows, ∀ v ∈ r, wfValB v = true := by
      rw [List.all_eq_true] at hrall
      intro r hr
      have := hrall r hr
      rw [List.all_eq_true] at this
      exact this
    have hndh : t.name ∉ ts'.map Table.name := (List.nodup_cons.mp hnd).1
    have hnd' : (ts'.map Table.name).Nodup := (List.nodup_cons.mp hnd).2
    have hfresh_t : ∀ u ∈ st, u.name ≠ t.name := fun u hu => hfresh u hu t (by simp)
    have hfresh' : ∀ u ∈ st ++ [t], ∀ s ∈ ts', u.name ≠ s.name := by
      intro u hu s hs
      rcases List.mem_append.mp hu with h | h
      · exact hfresh u h s (by simp [hs])
      · rw [List.mem_singleton.mp h]
        intro he
        apply hndh
        rw [he]
        exact List.mem_map_of_mem _ hs
    have hwf' : ∀ s ∈ ts', wfTableB s = true := fun s hs => hwf s (by simp [hs])
    rw [sectionsText_cons_data]
    rcases eq_or_ne t.rows [] with hrow | hrow
    · -- empty table: two statement chunks, then a junk tail
      rw [sectionText_data_empty t hrow]
      rw [show pre ++ ((chunkA t.name ++ ';' ::
          (('\n' :: (mkCreateStmt t.name t.cols).data) ++ ';' :: junkTail t.name)) ++
          (sectionsText ts').data) =
        (pre ++ chunkA t.name) ++ ';' ::
          (('\n' :: (mkCreateStmt t.name t.cols).data) ++ ';' ::
            (junkTail t.name ++ (sectionsText ts').data)) from by simp]
      rw [importedChunks_eq, splitOnChar_append_sep, splitOnChar_append_sep,
        splitOnChar_no_sep ';' (pre ++ chunkA t.name)
          (noChar_append hsemi (chunkA_no_semi t.name hn)),
        splitOnChar_no_sep ';' ('\n' :: (mkCreateStmt t.name t.cols).data)
          (noChar_cons (by decide) (mkCreateStmt_no_semi t.name t.cols hn hcw))]
      simp only [List.singleton_append, List.map_cons]
      rw [List.filter_cons_of_pos (by
        exact decide_eq_true (pyStrip_ne_of_mem _ '-'
          (List.mem_append_right _ (dash_mem_chunkA t.name)) (by decide)))]
      rw [List.filter_cons_of_pos (by
        exact decide_eq_true (pyStrip_ne_of_mem _ 'C'
          (by
            obtain ⟨rc, hrc⟩ := mkCreateStmt_head t.name t.cols
            rw [hrc]
            simp) (by decide)))]
      rw [← importedChunks_eq (junkTail t.name ++ (sectionsText ts').data)]
      obtain ⟨ihA, ihB⟩ := ih (st ++ [t]) (junkTail t.name)
        (lines_junk_junkTail t.name hn) (junkTail_no_semi t.name hn) hwf' hnd' hfresh'
      have hTeq : (⟨t.name, t.cols, []⟩ : Table) = t := by rw [← hrow]
      constructor
      · rw [execFold_cons_ok _ _ _ _ _ (execStmt_chunkA st pre t hpre hn hfresh_t)]
        rw [execFold_cons_ok _ _ _ _ _ (execStmt_chunkB st t hn hne hcw hfresh_t)]
        rw [hTeq, ihA, List.append_assoc]
        rfl
      · rw [List.filterMap_cons_some (by exact parse_chunkA pre t.name hpre hn)]
        rw [List.filterMap_cons_some (by exact parse_chunkB t.name t.cols hn hne hcw)]
        rw [ihB, List.flatMap_cons, tableCmds, if_pos hrow]
        simp
    · -- table with rows: three statement chunks, then a newline
      rw [sectionText_data_rows t hrow]
      rw [show pre ++ ((chunkA t.name ++ ';' ::
          (('\n' :: (mkCreateStmt t.name t.cols).data) ++ ';' ::
            (chunkD t ++ ';' :: ['\n']))) ++ (sectionsText ts').data) =
        (pre ++ chunkA t.name) ++ ';' ::
          (('\n' :: (mkCreateStmt t.name t.cols).data) ++ ';' ::
            (chunkD t ++ ';' :: (['\n'] ++ (sectionsText ts').data))) from by simp]
      rw [importedChunks_eq, splitOnChar_append_sep, splitOnChar_append_sep,
        splitOnChar_append_sep,
        splitOnChar_no_sep ';' (pre ++ chunkA t.name)
          (noChar_append hsemi (chunkA_no_semi t.name hn)),
        splitOnChar_no_sep ';' ('\n' :: (mkCreateStmt t.name t.cols).data)
          (noChar_cons (by decide) (mkCreateStmt_no_semi t.name t.cols hn hcw)),
        splitOnChar_no_sep ';' (chunkD t) (chunkD_no_semi t hn hcw hrw)]
      simp only [List.singleton_append, List.map_cons]
      rw [List.filter_cons_of_pos (by
        exact decide_eq_true (pyStrip_ne_of_mem _ '-'
          (List.mem_append_right _ (dash_mem_chunkA t.name)) (by decide)))]
      rw [List.filter_cons_of_pos (by
        exact decide_eq_true (pyStrip_ne_of_mem _ 'C'
          (by
            obtain ⟨rc, hrc⟩ := mkCreateStmt_head t.name t.cols
            rw [hrc]
            simp) (by decide)))]
      rw [List.filter_cons_of_pos (by
        exact decide_eq_true (pyStrip_ne_of_mem _ '-' (dash_mem_chunkD t) (by decide)))]
      rw [← importedChunks_eq ('\n' :: (sectionsText ts').data)]
      obtain ⟨ihA, ihB⟩ := ih (st ++ [t]) ['\n']
        lines_junk_singleNl (noChar_of_all (by decide)) hwf' hnd' hfresh'
      rw [List.singleton_append] at ihA ihB
      constructor
      · rw [execFold_cons_ok _ _ _ _ _ (execStmt_chunkA st pre t hpre hn hfresh_t)]
        rw [execFold_cons_ok _ _ _ _ _ (execStmt_chunkB st t hn hne hcw hfresh_t)]
        rw [execFold_cons_ok _ _ _ _ _
          (execStmt_chunkD st t hn hne hcw hrow hrw hfresh_t)]
        rw [show (⟨t.name, t.cols, t.rows⟩ : Table) = t from rfl, ihA, List.append_assoc]
        rfl
      · rw [List.filterMap_cons_some (by exact parse_chunkA pre t.name hpre hn)]
        rw [List.filterMap_cons_some (by exact parse_chunkB t.name t.cols hn hne hcw)]
        rw [List.filterMap_cons_some (by exact parse_chunkD t hn hne hcw hrow hrw)]
        rw [ihB, List.flatMap_cons, tableCmds, if_neg hrow]
        simp

/-! ## Claims C1 and C5 -/

/-- Claim C5: for every exported database, `export_dump` emits, per table
in enumeration order, a `DROP TABLE IF EXISTS` statement, the
engine-reported create statement, and a single multi-row `INSERT`
covering all rows — and no `INSERT` at all for a table with zero rows:
the recognized statement sequence of the dump is exactly the predicted
drop/create/insert triple (or drop/create pair) per table, for
well-formed identifiers and cell values. -/
theorem export_dump_statement_shape (now dbLabel : String) (db : List Table)
    (h : wfDb now dbLabel db) :
    dumpCommands (exportText now dbLabel db) = db.flatMap tableCmds := by
  obtain ⟨hnd, hall, hnow, hlbl⟩ := h
  have hwf : ∀ s ∈ db, wfTableB s = true := by
    rw [List.all_eq_true] at hall
    exact hall
  have h2 := (import_sections db [] (headerL now dbLabel)
    (lines_junk_headerL now dbLabel hnow hlbl)
    (headerL_no_semi now dbLabel hnow hlbl) hwf hnd
    (by intro u hu s hs; exact absurd hu (List.not_mem_nil u))).2
  rw [show dumpCommands (exportText now dbLabel db) =
    (importedChunks ((exportText now dbLabel db).data)).filterMap
      (fun c => parseCmd (skipJunk c.data)) from rfl]
  rw [exportText_data]
  exact h2

/-- Witness for C5: a two-table database (one with rows, one empty); its
dump's recognized statements are drop/create/insert for the first table
and just drop/create for the empty one. -/
theorem export_dump_statement_shape_witness :
    wfDb ("2024") ("db")
      [⟨("t"), [("a"), ("b")],
        [[SqlValue.num 1, SqlValue.str ("x")], [SqlValue.null, SqlValue.num (-2)]]⟩,
       ⟨("e"), [("c")], []⟩]
    ∧ dumpCommands (exportText ("2024") ("db")
        [⟨("t"), [("a"), ("b")],
          [[SqlValue.num 1, SqlValue.str ("x")], [SqlValue.null, SqlValue.num (-2)]]⟩,
         ⟨("e"), [("c")], []⟩]) =
      ([⟨("t"), [("a"), ("b")],
          [[SqlValue.num 1, SqlValue.str ("x")], [SqlValue.null, SqlValue.num (-2)]]⟩,
        ⟨("e"), [("c")], []⟩] : List Table).flatMap tableCmds :=
  ⟨⟨by decide, by decide, by decide, by decide⟩,
   export_dump_statement_shape ("2024") ("db")
     [⟨("t"), [("a"), ("b")],
       [[SqlValue.num 1, SqlValue.str ("x")], [SqlValue.null, SqlValue.num (-2)]]⟩,
      ⟨("e"), [("c")], []⟩] ⟨by decide, by decide, by decide, by decide⟩⟩

/-- Claim C1 counterexample: a database whose only cell value contains the
literal text `;` breaks the export/import round-trip, because
`import_dump` splits the dump on every `;`.  The export succeeds and
produces the dump text, the re-import still reports success, but the
reconstructed table has lost its row — not row-for-row identical
contents.  No statement-length limit is involved. -/
theorem export_import_roundtrip_failure :
    (export_dump (Except.ok ()) (Except.ok [⟨("t"), [("c")], [[SqlValue.str ("a;b")]]⟩])
        ("now") ("db")).2 =
      some (exportText ("now") ("db") [⟨("t"), [("c")], [[SqlValue.str ("a;b")]]⟩])
    ∧ (import_dump (engineEnv (exportText ("now") ("db")
        [⟨("t"), [("c")], [[SqlValue.str ("a;b")]]⟩])) [] true).1.1 = true
    ∧ (import_dump (engineEnv (exportText ("now") ("db")
        [⟨("t"), [("c")], [[SqlValue.str ("a;b")]]⟩])) [] true).2.1 =
      [⟨("t"), [("c")], []⟩] := by
  refine ⟨rfl, ?_, ?_⟩
  · set_option maxRecDepth 10000 in decide
  · set_option maxRecDepth 10000 in decide

/-- Claim C1 (amended): the export/import round-trip reconstructs the
exported tables row for row provided the database is well-formed for the
naive `split(';')` replay: no serialized cell contains `;`, identifiers
contain no backtick, `;` or newline, table names are distinct and every
table has at least one column.  Then `export_dump` succeeds, and replaying
its output with `import_dump` into a fresh engine reports success and
rebuilds exactly the exported tables, in order. -/
theorem export_import_roundtrip (now dbLabel : String) (db : List Table)
    (newDb : Bool) (h : wfDb now dbLabel db) :
    (export_dump (Except.ok ()) (Except.ok db) now dbLabel).1 =
        (true, "Dump exported successfully")
    ∧ ∀ text, (export_dump (Except.ok ()) (Except.ok db) now dbLabel).2 = some text →
        import_dump (engineEnv text) [] newDb =
          ((true, "Dump imported successfully"), db, importStatements text) := by
  obtain ⟨hnd, hall, hnow, hlbl⟩ := h
  have hwf : ∀ s ∈ db, wfTableB s = true := by
    rw [List.all_eq_true] at hall
    exact hall
  refine ⟨rfl, ?_⟩
  intro text htext
  have htext2 : some (exportText now dbLabel db) = some text := htext
  have htext3 : text = exportText now dbLabel db := (Option.some.inj htext2).symm
  subst htext3
  rw [show engineEnv (exportText now dbLabel db) =
    ⟨Except.ok (), Except.ok (), Except.ok (exportText now dbLabel db), execStmt⟩ from rfl]
  rw [import_dump_ok]
  have hexec := (import_sections db [] (headerL now dbLabel)
    (lines_junk_headerL now dbLabel hnow hlbl)
    (headerL_no_semi now dbLabel hnow hlbl) hwf hnd
    (by intro u hu s hs; exact absurd hu (List.not_mem_nil u))).1
  rw [show importStatements (exportText now dbLabel db) =
    importedChunks ((exportText now dbLabel db).data) from rfl]
  rw [exportText_data]
  rw [hexec]
  rfl

/-- Witness for C1 (amended): a concrete well-formed database (numeric,
textual, quoted and `NULL` cells) whose dump re-imports to exactly the
original tables. -/
theorem export_import_roundtrip_witness :
    wfDb ("2024") ("db")
      [⟨("u"), [("a"), ("b")],
        [[SqlValue.num (-3), SqlValue.str ("x,y")], [SqlValue.null, SqlValue.num 7]]⟩]
    ∧ import_dump (engineEnv (exportText ("2024") ("db")
        [⟨("u"), [("a"), ("b")],
          [[SqlValue.num (-3), SqlValue.str ("x,y")], [SqlValue.null, SqlValue.num 7]]⟩]))
        [] true =
      ((true, "Dump imported successfully"),
       [⟨("u"), [("a"), ("b")],
         [[SqlValue.num (-3), SqlValue.str ("x,y")], [SqlValue.null, SqlValue.num 7]]⟩],
       importStatements (exportText ("2024") ("db")
         [⟨("u"), [("a"), ("b")],
           [[SqlValue.num (-3), SqlValue.str ("x,y")], [SqlValue.null, SqlValue.num 7]]⟩])) :=
  ⟨⟨by decide, by decide, by decide, by decide⟩,
   (export_import_roundtrip ("2024") ("db")
     [⟨("u"), [("a"), ("b")],
       [[SqlValue.num (-3), SqlValue.str ("x,y")], [SqlValue.null, SqlValue.num 7]]⟩]
     true ⟨by decide, by decide, by decide, by decide⟩).2
     (exportText ("2024") ("db")
       [⟨("u"), [("a"), ("b")],
         [[SqlValue.num (-3), SqlValue.str ("x,y")], [SqlValue.null, SqlValue.num 7]]⟩])
     rfl⟩

end DbOps
